import Mathlib

/-!
# Storefront cart store and GA4 event pipeline (`app.js`)

A shallow embedding of the cart store (`getCart`, `saveCart`, `addToCart`,
`updateCartCount`), of the event pipeline (`fireGA4Event`) and of the cart and
checkout page controllers (`loadCartPage`, `loadCheckoutPage`) of `app.js`.

Modelling conventions.

* Numbers are doubles with an integer value, the infinities and `NaN` (`JSNumber`); `+`
  and `*` round the exact result to the nearest double (`roundDouble`). Amounts are
  integers in this shop, so doubles with a fractional part are left out, and negative
  zero is not told apart from zero.
* A line item has string `id` and `name`, a `price` and a `quantity` that are numbers or
  `null`, and a variant object with string values; a cart is an array of such line items.
  Arrays with other elements are left out.
* A function that can raise returns `Except`; the cart store functions, which write the
  `cart` slot, carry the browser state at the raise in the error.
* The browser environment is an explicit `World` value: the `cart` slot of
  `localStorage`, the number shown by the `#cart-count` elements, the calls handed to
  `gtag` and the console warnings.
* The text stored in the `cart` slot is kept as its JSON syntax tree (`StoredText`), or as
  the fact that it is outside the JSON grammar. `JSON.stringify` writes a number that is
  not finite as `null`; `JSON.parse` reads a numeral beyond the range of the doubles as an
  infinity. A numeral within the range is identified by the double it denotes, and an
  object by its members in the enumeration order of the object it denotes.
* A variant object is represented by its own properties in enumeration order, the order
  observed by `JSON.stringify` and `Object.values`; `selectedOptions` builds that order
  from the assignments made on the product page.
* The page elements that the controllers look up by id are taken to exist; the rendered
  markup is kept as data (`CartRow`, `CartPage`, `CheckoutPage`), and a registered
  listener as the function it runs.
-/

set_option autoImplicit false

namespace Storefront

/-! ## JSON.stringify on variant objects -/

/-- The double quote character. -/
def dquote : Char := Char.ofNat 34

/-- The reverse solidus character. -/
def rsolidus : Char := Char.ofNat 92

/-- Lower-case hexadecimal digit of a number below sixteen. -/
def hexDigit (n : Nat) : Char :=
  if n < 10 then Char.ofNat (48 + n) else Char.ofNat (87 + n)

/-- QuoteJSONString on one code point: the two-character escapes, the `\u00xx` escape of
the other control characters, every other code point unchanged. -/
def quoteChar (c : Char) : List Char :=
  if c.toNat = 8 then [rsolidus, 'b']
  else if c.toNat = 9 then [rsolidus, 't']
  else if c.toNat = 10 then [rsolidus, 'n']
  else if c.toNat = 12 then [rsolidus, 'f']
  else if c.toNat = 13 then [rsolidus, 'r']
  else if c.toNat = 34 then [rsolidus, dquote]
  else if c.toNat = 92 then [rsolidus, rsolidus]
  else if c.toNat < 32 then
    [rsolidus, 'u', '0', '0', hexDigit (c.toNat / 16), hexDigit (c.toNat % 16)]
  else [c]

/-- The escaped body of a string, without the surrounding quotes. -/
def quoteBody : List Char → List Char
  | [] => []
  | c :: cs => quoteChar c ++ quoteBody cs

/-- QuoteJSONString: the escaped body between two double quotes. -/
def quoteJSONString (s : String) : List Char :=
  dquote :: (quoteBody s.data ++ [dquote])

/-- An option-label to chosen-value object, as the list of its own properties in
enumeration order. The enumeration order is the insertion order of the keys, except that
keys that are array indices come first, in ascending order; the list holds the properties
in that order, whatever the order in which the object was written. -/
abbrev Variant := List (String × String)

/-- One `"label":"value"` member of a serialized object. -/
def stringifyMember (kv : String × String) : List Char :=
  quoteJSONString kv.1 ++ ':' :: quoteJSONString kv.2

/-- The members of a serialized object, separated by commas. -/
def stringifyMembers : Variant → List Char
  | [] => []
  | [kv] => stringifyMember kv
  | kv :: kv2 :: rest => stringifyMember kv ++ ',' :: stringifyMembers (kv2 :: rest)

/-- `JSON.stringify` on a variant object: the members in enumeration order between
braces. -/
def JSON.stringify (variant : Variant) : String :=
  String.mk (Char.ofNat 123 :: (stringifyMembers variant ++ [Char.ofNat 125]))

/-! ## Numbers -/

/-- A JavaScript number whose value, when finite, is an integer: `finite n` stands for the
double of value `n`, so `n` is taken to be representable. Negative zero is not told apart
from zero. -/
inductive JSNumber where
  | finite (n : Int)
  | posInf
  | negInf
  | nan
  deriving DecidableEq, Repr

instance (n : Nat) : OfNat JSNumber n := ⟨.finite n⟩

/-- Number of binary digits of `n`, with at most `fuel` halvings. -/
def bitLengthAux : Nat → Nat → Nat
  | 0, _ => 0
  | fuel + 1, n => if n = 0 then 0 else bitLengthAux fuel (n / 2) + 1

/-- Number of binary digits of a natural number. -/
def bitLength (n : Nat) : Nat := bitLengthAux n n

/-- The double nearest to an integer: 53 significant binary digits are kept, a tie goes to
the even significand, and a result of more than 1024 binary digits is an infinity.
Integers up to `2^53 = 9007199254740992` in magnitude are doubles. -/
def roundDouble (n : Int) : JSNumber :=
  let a := n.natAbs
  if a ≤ 9007199254740992 then .finite n
  else
    let k := bitLength a - 53
    let q := a >>> k
    let r := a - (q <<< k)
    let half := 1 <<< (k - 1)
    let m := if r < half then q else if r = half ∧ q % 2 = 0 then q else q + 1
    let rounded := m <<< k
    if 1024 < bitLength rounded then (if n < 0 then .negInf else .posInf)
    else .finite (if n < 0 then -(rounded : Int) else (rounded : Int))

/-- The sum of two numbers, as the operator `+` computes it on doubles. -/
def JSNumber.add : JSNumber → JSNumber → JSNumber
  | .nan, _ => .nan
  | _, .nan => .nan
  | .posInf, .negInf => .nan
  | .negInf, .posInf => .nan
  | .posInf, _ => .posInf
  | _, .posInf => .posInf
  | .negInf, _ => .negInf
  | _, .negInf => .negInf
  | .finite a, .finite b => roundDouble (a + b)

/-- The product of an infinity of the given sign with a finite number. -/
def infTimes (positive : Bool) (n : Int) : JSNumber :=
  if n = 0 then .nan
  else if decide (0 < n) = positive then .posInf else .negInf

/-- The product of two numbers, as the operator `*` computes it on doubles. -/
def JSNumber.mul : JSNumber → JSNumber → JSNumber
  | .nan, _ => .nan
  | _, .nan => .nan
  | .posInf, .posInf => .posInf
  | .posInf, .negInf => .negInf
  | .negInf, .posInf => .negInf
  | .negInf, .negInf => .posInf
  | .posInf, .finite b => infTimes true b
  | .negInf, .finite b => infTimes false b
  | .finite a, .posInf => infTimes true a
  | .finite a, .negInf => infTimes false a
  | .finite a, .finite b => roundDouble (a * b)

/-- The value of a numeric field of a line item: a number or `null`. -/
inductive Amount where
  | num (x : JSNumber)
  | null
  deriving DecidableEq, Repr

/-- The amount that is the integer `n`. -/
def Amount.ofInt (n : Int) : Amount := .num (.finite n)

instance : Coe Int Amount := ⟨Amount.ofInt⟩

instance (n : Nat) : OfNat Amount n := ⟨Amount.ofInt n⟩

/-- ToNumber on an amount: `null` converts to zero. -/
def Amount.toNumber : Amount → JSNumber
  | .num x => x
  | .null => .finite 0

/-! ## Values -/

/-- A JavaScript value: what `JSON.parse` returns and what is handed to the analytics
sink. An object is given by its properties in enumeration order. -/
inductive JSVal where
  | undefined
  | null
  | bool (b : Bool)
  | num (x : JSNumber)
  | str (s : String)
  | arr (elems : List JSVal)
  | obj (props : List (String × JSVal))

/-- An amount as a value. -/
def Amount.toJSVal : Amount → JSVal
  | .num x => .num x
  | .null => .null

/-- The exceptions that the modelled code can raise. -/
inductive JSError where
  | syntaxError
  | typeError
  | thrown (message : String)
  deriving DecidableEq, Repr

/-- A cart line item, with the fields `addToCart` writes. -/
structure CartLineItem where
  id : String
  name : String
  price : Amount
  quantity : Amount
  variant : Variant
  deriving DecidableEq, Repr

/-- The cart: an array of line items. -/
abbrev Cart := List CartLineItem

/-- A value that is not an array. -/
inductive NonArrayValue where
  | null
  | bool (b : Bool)
  | num (x : JSNumber)
  | str (s : String)
  | obj (props : List (String × JSVal))

/-- What `getCart` can return: a cart, or a value that is not an array. -/
inductive CartValue where
  | cart (c : Cart)
  | other (v : NonArrayValue)

/-- ToBoolean on a value that is not an array. -/
def NonArrayValue.truthy : NonArrayValue → Bool
  | .null => false
  | .bool b => b
  | .num (.finite n) => n != 0
  | .num .nan => false
  | .num _ => true
  | .str s => s != ""
  | .obj _ => true

/-! ## JSON text -/

/-- The token of a numeric field in JSON text. A numeral within the range of the doubles
is identified by the double it denotes; `huge` and `hugeNeg` are the numerals beyond that
range, which denote the infinities. -/
inductive AmountText where
  | numeral (n : Int)
  | huge
  | hugeNeg
  | null
  deriving DecidableEq, Repr

/-- The text of a line item: its five members, in the order `addToCart` writes them. -/
structure LineText where
  id : String
  name : String
  price : AmountText
  quantity : AmountText
  variant : Variant
  deriving DecidableEq, Repr

/-- JSON text, as its syntax tree; numerals as in `AmountText`, and the members of an
object in the enumeration order of the object they denote. -/
inductive JSONText where
  | null
  | bool (b : Bool)
  | numeral (n : Int)
  | huge
  | hugeNeg
  | string (s : String)
  | array (elems : List JSONText)
  | object (members : List (String × JSONText))

/-- JSON text of a value that is not an array. -/
inductive NonArrayText where
  | null
  | bool (b : Bool)
  | numeral (n : Int)
  | huge
  | hugeNeg
  | string (s : String)
  | object (members : List (String × JSONText))

/-- The text held under the `cart` key. -/
inductive StoredText where
  /-- Text outside the JSON grammar; `JSON.parse` raises a `SyntaxError` on it. -/
  | malformed
  /-- The text of a falsy JSON value: `null`, `false`, `0` or the empty string. -/
  | falsy
  /-- The text of an array of line items. -/
  | cart (lines : List LineText)
  /-- The text of a value that is not an array. -/
  | other (text : NonArrayText)

/-- `JSON.parse` on the token of a numeric field. -/
def JSON.parseAmount : AmountText → Amount
  | .numeral n => .num (.finite n)
  | .huge => .num .posInf
  | .hugeNeg => .num .negInf
  | .null => .null

/-- `JSON.stringify` on a numeric field: a number that is not finite is written `null`. -/
def JSON.stringifyAmount : Amount → AmountText
  | .num (.finite n) => .numeral n
  | .num _ => .null
  | .null => .null

/-- `JSON.parse` on the text of a line item. -/
def JSON.parseLine (line : LineText) : CartLineItem :=
  { id := line.id, name := line.name, price := JSON.parseAmount line.price,
    quantity := JSON.parseAmount line.quantity, variant := line.variant }

/-- `JSON.stringify` on a line item. -/
def JSON.stringifyLine (item : CartLineItem) : LineText :=
  { id := item.id, name := item.name, price := JSON.stringifyAmount item.price,
    quantity := JSON.stringifyAmount item.quantity, variant := item.variant }

mutual
/-- `JSON.parse` on a syntax tree. -/
def JSON.parseText : JSONText → JSVal
  | .null => .null
  | .bool b => .bool b
  | .numeral n => .num (.finite n)
  | .huge => .num .posInf
  | .hugeNeg => .num .negInf
  | .string s => .str s
  | .array elems => .arr (JSON.parseElems elems)
  | .object members => .obj (JSON.parseMembers members)
/-- `JSON.parse` on the elements of an array. -/
def JSON.parseElems : List JSONText → List JSVal
  | [] => []
  | t :: rest => JSON.parseText t :: JSON.parseElems rest
/-- `JSON.parse` on the members of an object. -/
def JSON.parseMembers : List (String × JSONText) → List (String × JSVal)
  | [] => []
  | (key, t) :: rest => (key, JSON.parseText t) :: JSON.parseMembers rest
end

mutual
/-- `JSON.stringify` on a value; `none` for `undefined`, which has no text. -/
def JSON.stringifyValue : JSVal → Option JSONText
  | .undefined => none
  | .null => some .null
  | .bool b => some (.bool b)
  | .num (.finite n) => some (.numeral n)
  | .num _ => some .null
  | .str s => some (.string s)
  | .arr elems => some (.array (JSON.stringifyElems elems))
  | .obj props => some (.object (JSON.stringifyProps props))
/-- `JSON.stringify` on the elements of an array: `undefined` is written `null`. -/
def JSON.stringifyElems : List JSVal → List JSONText
  | [] => []
  | v :: rest =>
    (match JSON.stringifyValue v with
      | some t => t
      | none => .null) :: JSON.stringifyElems rest
/-- `JSON.stringify` on the properties of an object: a property whose value is `undefined`
is left out. -/
def JSON.stringifyProps : List (String × JSVal) → List (String × JSONText)
  | [] => []
  | (key, v) :: rest =>
    match JSON.stringifyValue v with
    | some t => (key, t) :: JSON.stringifyProps rest
    | none => JSON.stringifyProps rest
end

/-- `JSON.parse` on the text of a value that is not an array. -/
def JSON.parseNonArray : NonArrayText → NonArrayValue
  | .null => .null
  | .bool b => .bool b
  | .numeral n => .num (.finite n)
  | .huge => .num .posInf
  | .hugeNeg => .num .negInf
  | .string s => .str s
  | .object members => .obj (JSON.parseMembers members)

/-- `JSON.stringify` on a value that is not an array. -/
def JSON.stringifyNonArray : NonArrayValue → NonArrayText
  | .null => .null
  | .bool b => .bool b
  | .num (.finite n) => .numeral n
  | .num _ => .null
  | .str s => .string s
  | .obj props => .object (JSON.stringifyProps props)

/-- `JSON.stringify(cart)` on what `getCart` can return. -/
def JSON.stringifyCart : CartValue → StoredText
  | .cart c => .cart (c.map JSON.stringifyLine)
  | .other v => .other (JSON.stringifyNonArray v)

/-! ## Cart store -/

/-- The browser state the modelled code reads and writes. -/
structure World where
  /-- The `cart` slot of `localStorage`; `none` when the key is not set. -/
  cartSlot : Option StoredText
  /-- The number shown by each `#cart-count` element. -/
  cartCount : List JSNumber
  /-- The events handed to `gtag`, oldest first. -/
  gtagCalls : List (String × JSVal)
  /-- The console warnings, oldest first. -/
  warnings : List String

/-- `localStorage.getItem('cart')`: `none` stands for the `null` of a missing key. -/
def getItem (w : World) : Option StoredText := w.cartSlot

/-- `JSON.parse` on the result of `getItem`; `none` in the result stands for a falsy
value. A `null` argument is converted to the text `null`, whose value is `null`. -/
def JSON.parse : Option StoredText → Except JSError (Option CartValue)
  | none => .ok none
  | some .malformed => .error .syntaxError
  | some .falsy => .ok none
  | some (.cart lines) => .ok (some (.cart (lines.map JSON.parseLine)))
  | some (.other text) =>
    if (JSON.parseNonArray text).truthy then .ok (some (.other (JSON.parseNonArray text)))
    else .ok none

/-- `getCart`: `JSON.parse(localStorage.getItem('cart')) || []`. An array, empty or not,
is truthy, so a parsed cart is returned as it is. -/
def getCart (w : World) : Except JSError CartValue :=
  match JSON.parse (getItem w) with
  | .error e => .error e
  | .ok parsed => .ok (parsed.getD (.cart []))

/-- `localStorage.setItem('cart', text)`. -/
def setItem (text : StoredText) (w : World) : World :=
  { w with cartSlot := some text }

/-- `updateCartCount`: reads the cart, sums the quantities and writes the sum into every
`#cart-count` element. A value that is not an array has no `reduce`: a `TypeError`. An
error carries the browser state at the raise. -/
def updateCartCount (w : World) : Except (JSError × World) World :=
  match getCart w with
  | .error e => .error (e, w)
  | .ok (.other _) => .error (.typeError, w)
  | .ok (.cart cart) =>
    let totalCount := cart.foldl (fun sum item => sum.add item.quantity.toNumber) (.finite 0)
    .ok { w with cartCount := w.cartCount.map (fun _ => totalCount) }

/-- `saveCart`: writes `JSON.stringify(cart)`, then refreshes the cart count. -/
def saveCart (cart : CartValue) (w : World) : Except (JSError × World) World :=
  updateCartCount (setItem (JSON.stringifyCart cart) w)

/-- The browser state a call leaves, whether it returned or raised. -/
def stateAfter (w : Except (JSError × World) World) : World :=
  match w with
  | .ok w2 => w2
  | .error (_, w2) => w2

/-- The predicate `addToCart` passes to `cart.find`. -/
def sameKey (productId : String) (variant : Variant) (item : CartLineItem) : Bool :=
  item.id == productId && JSON.stringify item.variant == JSON.stringify variant

/-- Position of the first element that satisfies `p`: the element `Array.prototype.find`
returns, `none` when it returns `undefined`. -/
def findPos (p : CartLineItem → Bool) : Cart → Option Nat
  | [] => none
  | item :: rest => if p item then some 0 else (findPos p rest).map (· + 1)

/-- `existingItem.quantity += quantity` on the element at position `i`. -/
def addQuantity (quantity : Amount) : Nat → Cart → Cart
  | _, [] => []
  | 0, item :: rest =>
    { item with quantity := .num (item.quantity.toNumber.add quantity.toNumber) } :: rest
  | i + 1, item :: rest => item :: addQuantity quantity i rest

/-- `addToCart`. A value that is not an array has no `find`: a `TypeError`. -/
def addToCart (productId productName : String) (productPrice quantity : Amount)
    (variant : Variant) (w : World) : Except (JSError × World) World :=
  match getCart w with
  | .error e => .error (e, w)
  | .ok (.other _) => .error (.typeError, w)
  | .ok (.cart cart) =>
    match findPos (sameKey productId variant) cart with
    | some i => saveCart (.cart (addQuantity quantity i cart)) w
    | none =>
      saveCart (.cart (cart ++ [{ id := productId, name := productName, price := productPrice,
                                  quantity := quantity, variant := variant }])) w

/-! ## Event pipeline -/

/-- The global `gtag` function: it takes the command, the event name and the parameters,
and returns or raises. -/
abbrev Sink := String → String → JSVal → Except JSError Unit

/-- The warning `fireGA4Event` logs when `gtag` is not a function. -/
def gtagMissingWarning : String :=
  "GA4 gtag() 함수가 정의되지 않았습니다. HTML 파일에 추적 코드를 확인하세요."

/-- `fireGA4Event`. The argument `gtag` is `none` when `typeof gtag` is not
`'function'`. A call that returns is appended to `gtagCalls`. -/
def fireGA4Event (gtag : Option Sink) (eventName : String) (parameters : JSVal)
    (w : World) : Except JSError World :=
  match gtag with
  | some sink =>
    match sink "event" eventName parameters with
    | .error e => .error e
    | .ok _ => .ok { w with gtagCalls := w.gtagCalls ++ [(eventName, parameters)] }
  | none => .ok { w with warnings := w.warnings ++ [gtagMissingWarning] }

/-- Property read `value[key]` on an object; `undefined` when there is no such property. -/
def JSVal.get (key : String) : JSVal → JSVal
  | .obj props => (props.lookup key).getD .undefined
  | _ => .undefined

/-- `Object.keys(value)`. -/
def JSVal.keys : JSVal → List String
  | .obj props => props.map Prod.fst
  | _ => []

/-- The elements of an array value. -/
def JSVal.elems : JSVal → List JSVal
  | .arr xs => xs
  | _ => []

/-! ## Cart page -/

/-- A product record of the catalog. -/
structure Product where
  id : String
  name : String
  price : Int
  category : String
  image : String
  description : String
  options : List (String × List String)
  deriving DecidableEq, Repr

/-- One rendered `.cart-item` block: image, name, variant text, quantity, line total. -/
structure CartRow where
  image : String
  name : String
  variantText : String
  quantity : Amount
  lineTotal : JSNumber
  deriving DecidableEq, Repr

/-- `Object.values(variant).join('/')`. -/
def variantText (variant : Variant) : String :=
  "/".intercalate (variant.map Prod.snd)

/-- The product `item.price * item.quantity`. -/
def lineTotal (item : CartLineItem) : JSNumber :=
  item.price.toNumber.mul item.quantity.toNumber

/-- The object the `cart.map` callback of `loadCartPage` returns for a line item. -/
def cartItemForGA4 (item : CartLineItem) (product : Product) : JSVal :=
  .obj [("item_id", .str item.id), ("item_name", .str item.name),
        ("price", item.price.toJSVal), ("item_category", .str product.category),
        ("item_variant", .str (variantText item.variant)),
        ("quantity", item.quantity.toJSVal)]

/-- The block the `cart.map` callback of `loadCartPage` renders for a line item. -/
def cartRow (item : CartLineItem) (product : Product) : CartRow :=
  { image := product.image, name := item.name, variantText := variantText item.variant,
    quantity := item.quantity, lineTotal := lineTotal item }

/-- The `cart.map` loop of `loadCartPage`, threading `totalValue` and the rendered rows.
Each turn looks the product up, adds to `totalValue`, renders the row (reading
`product.image`, a `TypeError` when `find` returned `undefined`) and returns the item
object. -/
def cartItemsLoop (products : List Product) :
    Cart → JSNumber → List CartRow → Except JSError (JSNumber × List CartRow × List JSVal)
  | [], totalValue, rows => .ok (totalValue, rows, [])
  | item :: rest, totalValue, rows =>
    let found := products.find? (fun p => p.id == item.id)
    let totalValue := totalValue.add (lineTotal item)
    match found with
    | none => .error .typeError
    | some product =>
      match cartItemsLoop products rest totalValue (rows ++ [cartRow item product]) with
      | .error e => .error e
      | .ok (total, allRows, items) => .ok (total, allRows, cartItemForGA4 item product :: items)

/-- The payload of `view_cart` and `begin_checkout`. -/
def cartEventPayload (totalValue : JSNumber) (itemsForGA4 : List JSVal) : JSVal :=
  .obj [("currency", .str "KRW"), ("value", .num totalValue), ("items", .arr itemsForGA4)]

/-- What `loadCartPage` leaves on the page: the rendered rows, the total of the summary
(`none` when the summary is left untouched) and the payload the click listener of
`#begin-checkout-btn` fires (`none` when no listener is registered). -/
structure CartPage where
  rows : List CartRow
  summaryTotal : Option JSNumber
  beginCheckout : Option JSVal

/-- The test `cart.length === 0` on a value that is not an array; reading a property of
`null` is a `TypeError`. -/
def NonArrayValue.lengthIsZero : NonArrayValue → Except JSError Bool
  | .null => .error .typeError
  | .bool _ => .ok false
  | .num _ => .ok false
  | .str s => .ok (s == "")
  | .obj props =>
    match props.lookup "length" with
    | some (.num (.finite n)) => .ok (n == 0)
    | _ => .ok false

/-- `loadCartPage`; an error stands for the rejection of the returned promise. A value
that is not an array and whose `length` is not zero has no `map`: a `TypeError`. -/
def loadCartPage (gtag : Option Sink) (products : List Product) (w : World) :
    Except JSError (World × CartPage) :=
  match getCart w with
  | .error e => .error e
  | .ok (.other v) =>
    match v.lengthIsZero with
    | .error e => .error e
    | .ok true => .ok (w, { rows := [], summaryTotal := none, beginCheckout := none })
    | .ok false => .error .typeError
  | .ok (.cart cart) =>
    if cart.length = 0 then
      .ok (w, { rows := [], summaryTotal := none, beginCheckout := none })
    else
      match cartItemsLoop products cart 0 [] with
      | .error e => .error e
      | .ok (totalValue, rows, itemsForGA4) =>
        match fireGA4Event gtag "view_cart" (cartEventPayload totalValue itemsForGA4) w with
        | .error e => .error e
        | .ok w2 =>
          .ok (w2, { rows := rows, summaryTotal := some totalValue,
                     beginCheckout := some (cartEventPayload totalValue itemsForGA4) })

/-- The click listener of `#begin-checkout-btn`. -/
def beginCheckoutClick (gtag : Option Sink) (page : CartPage) (w : World) :
    Except JSError World :=
  match page.beginCheckout with
  | none => .ok w
  | some payload => fireGA4Event gtag "begin_checkout" payload w

/-! ## Checkout page -/

/-- The copy of a line item made by the object spread in `cart.map` of
`loadCheckoutPage`: the own properties of the line item, in their order. -/
def spreadItem (item : CartLineItem) : JSVal :=
  .obj [("id", .str item.id), ("name", .str item.name), ("price", item.price.toJSVal),
        ("quantity", item.quantity.toJSVal),
        ("variant", .obj (item.variant.map (fun kv => (kv.1, JSVal.str kv.2))))]

/-- What `loadCheckoutPage` computes once and its listeners capture. -/
structure CheckoutPage where
  cart : Cart
  totalValue : JSNumber
  shippingCost : JSNumber
  grandTotal : JSNumber
  deriving DecidableEq, Repr

/-- `loadCheckoutPage`, up to the registration of the three listeners. A value that is
not an array has no `reduce`: a `TypeError`. -/
def loadCheckoutPage (w : World) : Except JSError CheckoutPage :=
  match getCart w with
  | .error e => .error e
  | .ok (.other _) => .error .typeError
  | .ok (.cart cart) =>
    let totalValue := cart.foldl (fun sum item => sum.add (lineTotal item)) (.finite 0)
    let shippingCost : JSNumber := 3000
    let grandTotal := totalValue.add shippingCost
    .ok { cart := cart, totalValue := totalValue, shippingCost := shippingCost,
          grandTotal := grandTotal }

/-- The payload of `add_shipping_info`. -/
def shippingInfoPayload (page : CheckoutPage) : JSVal :=
  .obj [("currency", .str "KRW"), ("value", .num page.grandTotal),
        ("shipping_tier", .str "Standard Shipping"),
        ("items", .arr (page.cart.map spreadItem))]

/-- The payload of `add_payment_info`; `paymentMethod` is the value of `#payment-method`. -/
def paymentInfoPayload (page : CheckoutPage) (paymentMethod : String) : JSVal :=
  .obj [("currency", .str "KRW"), ("value", .num page.grandTotal),
        ("payment_type", .str paymentMethod),
        ("items", .arr (page.cart.map spreadItem))]

/-- The transaction id of a purchase; `now` is `Date.now()`. -/
def transactionId (now : Int) : String := "T-" ++ toString now

/-- The payload of `purchase`. -/
def purchasePayload (page : CheckoutPage) (now : Int) : JSVal :=
  .obj [("transaction_id", .str (transactionId now)), ("value", .num page.grandTotal),
        ("shipping", .num page.shippingCost), ("currency", .str "KRW"),
        ("items", .arr (page.cart.map spreadItem))]

/-- The submit listener of `#shipping-form`. -/
def shippingSubmit (gtag : Option Sink) (page : CheckoutPage) (w : World) :
    Except JSError World :=
  fireGA4Event gtag "add_shipping_info" (shippingInfoPayload page) w

/-- The submit listener of `#payment-form`. -/
def paymentSubmit (gtag : Option Sink) (page : CheckoutPage) (paymentMethod : String)
    (w : World) : Except JSError World :=
  fireGA4Event gtag "add_payment_info" (paymentInfoPayload page paymentMethod) w

/-- The click listener of `#purchase-button`: fires `purchase`, removes the `cart` key and
navigates; the result carries the address navigated to. -/
def purchaseClick (gtag : Option Sink) (page : CheckoutPage) (now : Int) (w : World) :
    Except JSError (World × String) :=
  match fireGA4Event gtag "purchase" (purchasePayload page now) w with
  | .error e => .error e
  | .ok w2 => .ok ({ w2 with cartSlot := none }, "confirmation.html?tid=" ++ transactionId now)

/-! ## Building the variant on the product page -/

/-- The array index a property key stands for, if any: the key is the decimal text,
without leading zero, of a natural number below `2^32 - 1`. -/
def arrayIndex? (key : String) : Option Nat :=
  let digits := key.data
  if digits ≠ [] ∧ digits.all Char.isDigit = true ∧ (digits.head? ≠ some '0' ∨ digits.length = 1) then
    let n := digits.foldl (fun acc c => acc * 10 + (c.toNat - 48)) 0
    if n < 4294967295 then some n else none
  else none

/-- A new property with array index `i` takes its place among the array-index properties,
which come first, in ascending order. -/
def insertIndexed (i : Nat) (key value : String) : Variant → Variant
  | [] => [(key, value)]
  | kv :: rest =>
    match arrayIndex? kv.1 with
    | some j => if j < i then kv :: insertIndexed i key value rest else (key, value) :: kv :: rest
    | none => (key, value) :: kv :: rest

/-- The assignment `object[key] = value`: an existing property keeps its place and takes
the value; a new property whose key is an array index is placed by `insertIndexed`; any
other new property comes last. -/
def setProperty (key value : String) (object : Variant) : Variant :=
  if object.any (fun kv => kv.1 == key) then
    object.map (fun kv => if kv.1 == key then (kv.1, value) else kv)
  else
    match arrayIndex? key with
    | some i => insertIndexed i key value object
    | none => object ++ [(key, value)]

/-- The object `selectedOptions` the click listener of `#add-to-cart-btn` builds: starting
from the empty object, one assignment `selectedOptions[label] = value` per select, in
document order. -/
def selectedOptions (choices : List (String × String)) : Variant :=
  choices.foldl (fun object kv => setProperty kv.1 kv.2 object) []

/-! ## Reading a serialization back (used to show that `JSON.stringify` is injective) -/

/-- Value of a lower-case hexadecimal digit. -/
def hexVal (c : Char) : Nat :=
  if c.toNat < 58 then c.toNat - 48 else c.toNat - 87

/-- Reads one escaped code point back. -/
def unquoteChar : List Char → Option (Char × List Char)
  | [] => none
  | a :: rest =>
    if a = rsolidus then
      match rest with
      | [] => none
      | b :: rest2 =>
        if b = 'b' then some (Char.ofNat 8, rest2)
        else if b = 't' then some (Char.ofNat 9, rest2)
        else if b = 'n' then some (Char.ofNat 10, rest2)
        else if b = 'f' then some (Char.ofNat 12, rest2)
        else if b = 'r' then some (Char.ofNat 13, rest2)
        else if b = 'u' then
          match rest2 with
          | _ :: _ :: h :: l :: rest3 => some (Char.ofNat (16 * hexVal h + hexVal l), rest3)
          | _ => none
        else some (b, rest2)
    else some (a, rest)

/-- What follows the first member of a serialized property list. -/
def membersTail (rest : Variant) (r : List Char) : List Char :=
  match rest with
  | [] => r
  | kv2 :: rest2 => ',' :: (stringifyMembers (kv2 :: rest2) ++ r)

/-! ## Notions used to state the claims -/

/-- A run of `addToCart` calls with one product id and one variant; each call brings its
own name, price and integer quantity. -/
def addToCartAll (productId : String) (variant : Variant) :
    List (String × Amount × Int) → World → Except (JSError × World) World
  | [], w => .ok w
  | call :: rest, w =>
    match addToCart productId call.1 call.2.1 (Amount.ofInt call.2.2) variant w with
    | .error e => .error e
    | .ok w2 => addToCartAll productId variant rest w2

/-- The statement `saveCart(getCart())`. -/
def saveCartOfGetCart (w : World) : Except (JSError × World) World :=
  match getCart w with
  | .error e => .error (e, w)
  | .ok cart => saveCart cart w

/-- A line item as it is read back after `JSON.stringify` and `JSON.parse`. -/
def persisted (item : CartLineItem) : CartLineItem :=
  JSON.parseLine (JSON.stringifyLine item)

/-- An amount that JSON text holds as it is: a finite number or `null`. -/
def Amount.jsonExact : Amount → Bool
  | .num (.finite _) => true
  | .num _ => false
  | .null => true

/-- A line item whose price and quantity JSON text holds as they are. -/
def CartLineItem.jsonExact (item : CartLineItem) : Bool :=
  item.price.jsonExact && item.quantity.jsonExact

mutual
/-- A value that JSON text holds as it is: every number in it is finite and `undefined`
does not occur in it. -/
def JSVal.jsonExact : JSVal → Bool
  | .undefined => false
  | .null => true
  | .bool _ => true
  | .num (.finite _) => true
  | .num _ => false
  | .str _ => true
  | .arr elems => JSVal.elemsExact elems
  | .obj props => JSVal.propsExact props
/-- Every element is a value that JSON text holds as it is. -/
def JSVal.elemsExact : List JSVal → Bool
  | [] => true
  | v :: rest => v.jsonExact && JSVal.elemsExact rest
/-- Every property value is a value that JSON text holds as it is. -/
def JSVal.propsExact : List (String × JSVal) → Bool
  | [] => true
  | (_, v) :: rest => v.jsonExact && JSVal.propsExact rest
end

/-- A value that is not an array and that JSON text holds as it is. -/
def NonArrayValue.jsonExact : NonArrayValue → Bool
  | .null => true
  | .bool _ => true
  | .num (.finite _) => true
  | .num _ => false
  | .str _ => true
  | .obj props => JSVal.propsExact props

/-- What `getCart` returned holds no infinite number (nor `NaN`, nor `undefined`), so that
JSON text holds it as it is. -/
def CartValue.jsonExact : CartValue → Bool
  | .cart c => c.all CartLineItem.jsonExact
  | .other v => v.jsonExact

/-- An amount that is an integer from 0 to `2^53`. -/
def Amount.isSafe : Amount → Bool
  | .num (.finite n) => decide (0 ≤ n ∧ n ≤ 9007199254740992)
  | _ => false

/-- The integer an amount stands for; 0 when it is not a finite number. -/
def Amount.exact : Amount → Int
  | .num (.finite n) => n
  | _ => 0

/-- The sum over the line items of price times quantity, in exact integer arithmetic. -/
def exactTotal (cart : Cart) : Int :=
  (cart.map (fun item => item.price.exact * item.quantity.exact)).sum

/-- The rows of the cart page, one per line item, each with the product of the catalog
that has the id of the line item. -/
def cartRows (products : List Product) (cart : Cart) : List CartRow :=
  cart.filterMap (fun item => (products.find? (fun p => p.id == item.id)).map (cartRow item))

/-- The `items` of the cart events, one per line item, each with the product of the
catalog that has the id of the line item. -/
def itemsForGA4 (products : List Product) (cart : Cart) : List JSVal :=
  cart.filterMap
    (fun item => (products.find? (fun p => p.id == item.id)).map (cartItemForGA4 item))

/-- The cart page with the given rows and total, whose checkout button fires the given
payload. -/
def cartPageWith (rows : List CartRow) (total : JSNumber) (payload : JSVal) : CartPage :=
  { rows := rows, summaryTotal := some total, beginCheckout := some payload }

/-! ## Sample inputs -/

/-- A browser state with no `cart` key, one `#cart-count` element and nothing logged. -/
def blankWorld : World :=
  { cartSlot := none, cartCount := [0], gtagCalls := [], warnings := [] }

/-- A browser state whose `cart` slot holds the given stored text. -/
def worldWith (stored : StoredText) : World :=
  { blankWorld with cartSlot := some stored }

/-- A browser state whose `cart` slot holds the text `saveCart` writes for a cart. -/
def worldWithCart (cart : Cart) : World :=
  worldWith (JSON.stringifyCart (.cart cart))

/-- A sink that accepts every call. -/
def acceptingSink : Sink := fun _ _ _ => .ok ()

/-- A sink that raises on every call. -/
def failingSink : Sink := fun _ _ _ => .error (.thrown "sink failure")

/-- A shirt in red, size M. -/
def redShirt : CartLineItem :=
  { id := "p1", name := "Shirt", price := 1000, quantity := 2,
    variant := [("color", "red"), ("size", "M")] }

/-- A mug without options. -/
def mug : CartLineItem :=
  { id := "p2", name := "Mug", price := 500, quantity := 3, variant := [] }

/-- A catalog with the shirt and the mug. -/
def sampleCatalog : List Product :=
  [{ id := "p1", name := "Shirt", price := 1000, category := "apparel", image := "shirt.png",
     description := "", options := [("color", ["red", "blue"]), ("size", ["M", "L"])] },
   { id := "p2", name := "Mug", price := 500, category := "kitchen", image := "mug.png",
     description := "", options := [] }]

/-- What `loadCheckoutPage` computes on a cart that holds the red shirt only. -/
def shirtCheckout : CheckoutPage :=
  { cart := [redShirt], totalValue := 2000, shippingCost := 3000, grandTotal := 5000 }

/-- The events the sink received, each with the property names of the elements of its
`items`. -/
def itemShapes (w : World) : List (String × List (List String)) :=
  w.gtagCalls.map (fun call => (call.1, (call.2.get "items").elems.map JSVal.keys))

/-! ## Serialization is injective -/

theorem char_eq_ofNat (c : Char) (n : Nat) (h : c.toNat = n) : c = Char.ofNat n := by
  subst h
  exact (Char.ofNat_toNat c).symm


theorem unquoteChar_quoteChar (c : Char) (r : List Char) :
    unquoteChar (quoteChar c ++ r) = some (c, r) := by
  unfold quoteChar
  split_ifs with h1 h2 h3 h4 h5 h6 h7 h8
  · rw [char_eq_ofNat c 8 h1]; rfl
  · rw [char_eq_ofNat c 9 h2]; rfl
  · rw [char_eq_ofNat c 10 h3]; rfl
  · rw [char_eq_ofNat c 12 h4]; rfl
  · rw [char_eq_ofNat c 13 h5]; rfl
  · rw [char_eq_ofNat c 34 h6]; rfl
  · rw [char_eq_ofNat c 92 h7]; rfl
  · generalize hn : c.toNat = n at *
    rw [char_eq_ofNat c n hn]
    interval_cases n <;> rfl
  · have hc : c ≠ rsolidus := fun hc => h7 (by rw [hc]; rfl)
    simp [unquoteChar, hc]

theorem quoteChar_head (c : Char) (r : List Char) :
    ∃ a t, quoteChar c ++ r = a :: t ∧ a ≠ dquote := by
  unfold quoteChar
  split_ifs with h1 h2 h3 h4 h5 h6 h7 h8
  all_goals first
    | exact ⟨rsolidus, _, rfl, by decide⟩
    | exact ⟨c, r, rfl, fun hc => h6 (by rw [hc]; rfl)⟩

theorem quoteBody_inj (s t : List Char) (r r2 : List Char)
    (h : quoteBody s ++ dquote :: r = quoteBody t ++ dquote :: r2) : s = t ∧ r = r2 := by
  induction s generalizing t with
  | nil =>
    cases t with
    | nil => simpa [quoteBody] using h
    | cons d t =>
      obtain ⟨a, u, hau, ha⟩ := quoteChar_head d (quoteBody t ++ dquote :: r2)
      simp only [quoteBody, List.nil_append, List.append_assoc] at h
      rw [hau] at h
      exact absurd (List.cons.inj h).1.symm ha
  | cons c s ih =>
    cases t with
    | nil =>
      obtain ⟨a, u, hau, ha⟩ := quoteChar_head c (quoteBody s ++ dquote :: r)
      simp only [quoteBody, List.nil_append, List.append_assoc] at h
      rw [hau] at h
      exact absurd (List.cons.inj h).1 ha
    | cons d t =>
      simp only [quoteBody, List.append_assoc] at h
      have h2 := congrArg unquoteChar h
      rw [unquoteChar_quoteChar, unquoteChar_quoteChar] at h2
      simp only [Option.some.injEq, Prod.mk.injEq] at h2
      obtain ⟨hcd, hrest⟩ := h2
      obtain ⟨hst, hr⟩ := ih t hrest
      exact ⟨by rw [hcd, hst], hr⟩

theorem quoteJSONString_inj (s t : String) (r r2 : List Char)
    (h : quoteJSONString s ++ r = quoteJSONString t ++ r2) : s = t ∧ r = r2 := by
  simp only [quoteJSONString, List.cons_append, List.append_assoc, List.singleton_append,
    List.cons.injEq, true_and] at h
  obtain ⟨hd, hr⟩ := quoteBody_inj s.data t.data r r2 h
  exact ⟨String.ext hd, hr⟩

theorem stringifyMember_inj (a b : String × String) (r r2 : List Char)
    (h : stringifyMember a ++ r = stringifyMember b ++ r2) : a = b ∧ r = r2 := by
  simp only [stringifyMember, List.append_assoc, List.cons_append] at h
  obtain ⟨h1, hrest⟩ := quoteJSONString_inj _ _ _ _ h
  obtain ⟨h2, hr⟩ := quoteJSONString_inj _ _ _ _ (List.cons.inj hrest).2
  exact ⟨Prod.ext h1 h2, hr⟩

theorem stringifyMember_head (a : String × String) (r : List Char) :
    ∃ t, stringifyMember a ++ r = dquote :: t := ⟨_, rfl⟩

theorem stringifyMembers_cons (kv : String × String) (rest : Variant) (r : List Char) :
    stringifyMembers (kv :: rest) ++ r = stringifyMember kv ++ membersTail rest r := by
  cases rest with
  | nil => simp [stringifyMembers, membersTail]
  | cons kv2 rest2 => simp [stringifyMembers, membersTail]

theorem stringifyMembers_inj (v v2 : Variant) (r r2 : List Char)
    (h : stringifyMembers v ++ Char.ofNat 125 :: r = stringifyMembers v2 ++ Char.ofNat 125 :: r2) :
    v = v2 ∧ r = r2 := by
  induction v generalizing v2 with
  | nil =>
    cases v2 with
    | nil => simpa [stringifyMembers] using h
    | cons b w =>
      obtain ⟨t, ht⟩ := stringifyMember_head b (membersTail w (Char.ofNat 125 :: r2))
      rw [stringifyMembers_cons, ht] at h
      exact absurd (List.cons.inj h).1 (by decide)
  | cons a v ih =>
    cases v2 with
    | nil =>
      obtain ⟨t, ht⟩ := stringifyMember_head a (membersTail v (Char.ofNat 125 :: r))
      rw [stringifyMembers_cons, ht] at h
      exact absurd (List.cons.inj h).1.symm (by decide)
    | cons b w =>
      rw [stringifyMembers_cons, stringifyMembers_cons] at h
      obtain ⟨hab, hrest⟩ := stringifyMember_inj _ _ _ _ h
      subst hab
      cases v with
      | nil =>
        cases w with
        | nil => exact ⟨rfl, (List.cons.inj hrest).2⟩
        | cons b2 w2 => exact absurd (List.cons.inj hrest).1 (by decide)
      | cons a2 v3 =>
        cases w with
        | nil => exact absurd (List.cons.inj hrest).1 (by decide)
        | cons b2 w2 =>
          obtain ⟨hv, hr⟩ := ih (b2 :: w2) (List.cons.inj hrest).2
          exact ⟨by rw [hv], hr⟩

/-- Equal serializations come from equal property lists. -/
theorem JSON.stringify_inj (v v2 : Variant) (h : JSON.stringify v = JSON.stringify v2) :
    v = v2 := by
  have hd := congrArg String.data h
  simp only [JSON.stringify, List.cons.injEq, true_and] at hd
  exact (stringifyMembers_inj v v2 [] [] hd).1

theorem sameKey_iff (productId : String) (variant : Variant) (item : CartLineItem) :
    sameKey productId variant item = true ↔ item.id = productId ∧ item.variant = variant := by
  simp only [sameKey, Bool.and_eq_true, beq_iff_eq]
  constructor
  · rintro ⟨h1, h2⟩
    exact ⟨h1, JSON.stringify_inj _ _ h2⟩
  · rintro ⟨h1, h2⟩
    exact ⟨h1, by rw [h2]⟩


/-! ## Numbers and JSON text -/

theorem roundDouble_of_natAbs_le (n : Int) (h : n.natAbs ≤ 9007199254740992) :
    roundDouble n = .finite n := by
  unfold roundDouble
  simp only [h, if_true]

theorem roundDouble_of_nonneg_le (n : Int) (h0 : 0 ≤ n) (h : n ≤ 9007199254740992) :
    roundDouble n = .finite n := by
  apply roundDouble_of_natAbs_le
  omega

theorem persisted_id (item : CartLineItem) : (persisted item).id = item.id := rfl

theorem persisted_variant (item : CartLineItem) : (persisted item).variant = item.variant := rfl

theorem parseAmount_stringifyAmount_idem (a : Amount) :
    JSON.parseAmount (JSON.stringifyAmount (JSON.parseAmount (JSON.stringifyAmount a))) =
      JSON.parseAmount (JSON.stringifyAmount a) := by
  rcases a with (_ | _ | _ | _) | _ <;> rfl

theorem persisted_idem (item : CartLineItem) : persisted (persisted item) = persisted item := by
  simp only [persisted, JSON.parseLine, JSON.stringifyLine, parseAmount_stringifyAmount_idem]

theorem parseAmount_stringifyAmount_of_exact (a : Amount) (h : a.jsonExact = true) :
    JSON.parseAmount (JSON.stringifyAmount a) = a := by
  rcases a with (_ | _ | _ | _) | _ <;> first | rfl | exact absurd h (by decide)

theorem persisted_of_exact (item : CartLineItem) (h : item.jsonExact = true) :
    persisted item = item := by
  simp only [CartLineItem.jsonExact, Bool.and_eq_true] at h
  simp only [persisted, JSON.parseLine, JSON.stringifyLine,
    parseAmount_stringifyAmount_of_exact _ h.1, parseAmount_stringifyAmount_of_exact _ h.2]

theorem map_persisted_of_exact (cart : Cart) (h : cart.all CartLineItem.jsonExact = true) :
    cart.map persisted = cart := by
  induction cart with
  | nil => rfl
  | cons item rest ih =>
    simp only [List.all_cons, Bool.and_eq_true] at h
    simp only [List.map_cons, persisted_of_exact item h.1, ih h.2]

theorem map_persisted_idem (cart : Cart) :
    (cart.map persisted).map persisted = cart.map persisted := by
  simp only [List.map_map]
  apply List.map_congr_left
  intro item _
  exact persisted_idem item

mutual
theorem parseText_stringifyValue (v : JSVal) (h : v.jsonExact = true) :
    ∃ t, JSON.stringifyValue v = some t ∧ JSON.parseText t = v := by
  cases v with
  | undefined => simp [JSVal.jsonExact] at h
  | null => exact ⟨_, rfl, rfl⟩
  | bool b => exact ⟨_, rfl, rfl⟩
  | num x =>
    cases x with
    | finite n => exact ⟨_, rfl, rfl⟩
    | posInf => simp [JSVal.jsonExact] at h
    | negInf => simp [JSVal.jsonExact] at h
    | nan => simp [JSVal.jsonExact] at h
  | str s => exact ⟨_, rfl, rfl⟩
  | arr elems =>
    simp only [JSVal.jsonExact] at h
    exact ⟨_, rfl, by simp only [JSON.parseText, parseElems_stringifyElems elems h]⟩
  | obj props =>
    simp only [JSVal.jsonExact] at h
    exact ⟨_, rfl, by simp only [JSON.parseText, parseMembers_stringifyProps props h]⟩
theorem parseElems_stringifyElems (vs : List JSVal) (h : JSVal.elemsExact vs = true) :
    JSON.parseElems (JSON.stringifyElems vs) = vs := by
  cases vs with
  | nil => rfl
  | cons v rest =>
    simp only [JSVal.elemsExact, Bool.and_eq_true] at h
    obtain ⟨t, ht, hp⟩ := parseText_stringifyValue v h.1
    simp only [JSON.stringifyElems, ht, JSON.parseElems, hp,
      parseElems_stringifyElems rest h.2]
theorem parseMembers_stringifyProps (props : List (String × JSVal))
    (h : JSVal.propsExact props = true) :
    JSON.parseMembers (JSON.stringifyProps props) = props := by
  cases props with
  | nil => rfl
  | cons kv rest =>
    obtain ⟨key, v⟩ := kv
    simp only [JSVal.propsExact, Bool.and_eq_true] at h
    obtain ⟨t, ht, hp⟩ := parseText_stringifyValue v h.1
    simp only [JSON.stringifyProps, ht, JSON.parseMembers, hp,
      parseMembers_stringifyProps rest h.2]
end

theorem parseNonArray_stringifyNonArray (v : NonArrayValue) (h : v.jsonExact = true) :
    JSON.parseNonArray (JSON.stringifyNonArray v) = v := by
  cases v with
  | null => rfl
  | bool b => rfl
  | num x =>
    cases x with
    | finite n => rfl
    | posInf => simp [NonArrayValue.jsonExact] at h
    | negInf => simp [NonArrayValue.jsonExact] at h
    | nan => simp [NonArrayValue.jsonExact] at h
  | str s => rfl
  | obj props =>
    simp only [NonArrayValue.jsonExact] at h
    simp only [JSON.stringifyNonArray, JSON.parseNonArray, parseMembers_stringifyProps props h]

/-! ## Cart store lemmas -/

theorem getCart_setItem_cart (cart : Cart) (w : World) :
    getCart (setItem (JSON.stringifyCart (.cart cart)) w) = .ok (.cart (cart.map persisted)) := by
  simp only [getCart, getItem, setItem, JSON.stringifyCart, JSON.parse, List.map_map,
    Option.getD_some]
  rfl

theorem saveCart_cart (cart : Cart) (w : World) :
    ∃ w2, saveCart (.cart cart) w = .ok w2 ∧ getCart w2 = .ok (.cart (cart.map persisted)) ∧
      w2.gtagCalls = w.gtagCalls ∧ w2.warnings = w.warnings := by
  have h := getCart_setItem_cart cart w
  refine ⟨{ setItem (JSON.stringifyCart (.cart cart)) w with
      cartCount := (setItem (JSON.stringifyCart (.cart cart)) w).cartCount.map
        (fun _ => (cart.map persisted).foldl
          (fun sum item => sum.add item.quantity.toNumber) (.finite 0)) }, ?_, h, rfl, rfl⟩
  simp only [saveCart, updateCartCount, h]

theorem findPos_eq_none (p : CartLineItem → Bool) (cart : Cart)
    (h : ∀ item ∈ cart, p item = false) : findPos p cart = none := by
  induction cart with
  | nil => rfl
  | cons item rest ih =>
    have h1 := h item (List.mem_cons_self _ _)
    have h2 := ih (fun x hx => h x (List.mem_cons_of_mem _ hx))
    simp [findPos, h1, h2]

theorem findPos_append (p : CartLineItem → Bool) (cart : Cart) (line : CartLineItem)
    (h : ∀ item ∈ cart, p item = false) (hline : p line = true) :
    findPos p (cart ++ [line]) = some cart.length := by
  induction cart with
  | nil => simp [findPos, hline]
  | cons item rest ih =>
    have h1 := h item (List.mem_cons_self _ _)
    have h2 := ih (fun x hx => h x (List.mem_cons_of_mem _ hx))
    simp [findPos, h1, h2]

theorem addQuantity_append (q : Amount) (cart : Cart) (line : CartLineItem) :
    addQuantity q cart.length (cart ++ [line]) =
      cart ++ [{ line with quantity := .num (line.quantity.toNumber.add q.toNumber) }] := by
  induction cart with
  | nil => rfl
  | cons item rest ih => simp [addQuantity, ih]

theorem sameKey_eq_false (productId : String) (variant : Variant) (item : CartLineItem)
    (h : ¬ (item.id = productId ∧ item.variant = variant)) :
    sameKey productId variant item = false := by
  cases hk : sameKey productId variant item with
  | false => rfl
  | true => exact absurd ((sameKey_iff _ _ _).1 hk) h

/-- A call whose key is not in the cart appends a line item; the whole cart is written
anew. -/
theorem addToCart_fresh (productId productName : String) (productPrice quantity : Amount)
    (variant : Variant) (w : World) (cart : Cart) (hcart : getCart w = .ok (.cart cart))
    (hfresh : ∀ item ∈ cart, ¬ (item.id = productId ∧ item.variant = variant)) :
    ∃ w2, addToCart productId productName productPrice quantity variant w = .ok w2 ∧
      getCart w2 = .ok (.cart (cart.map persisted ++
        [persisted { id := productId, name := productName, price := productPrice,
                     quantity := quantity, variant := variant }])) := by
  have hnone : findPos (sameKey productId variant) cart = none :=
    findPos_eq_none _ _ (fun item hitem => sameKey_eq_false _ _ _ (hfresh item hitem))
  obtain ⟨w2, hw2, hc2, _, _⟩ := saveCart_cart
    (cart ++ [{ id := productId, name := productName, price := productPrice,
                quantity := quantity, variant := variant }]) w
  refine ⟨w2, ?_, ?_⟩
  · simp only [addToCart, hcart, hnone, hw2]
  · rw [hc2, List.map_append]
    rfl

/-- A call whose key is the key of the last line item, and of no earlier one, adds to
the quantity of the last line item; the whole cart is written anew. -/
theorem addToCart_last (productId productName : String) (productPrice quantity : Amount)
    (variant : Variant) (w : World) (cart : Cart) (line : CartLineItem)
    (hcart : getCart w = .ok (.cart (cart ++ [line])))
    (hfresh : ∀ item ∈ cart, ¬ (item.id = productId ∧ item.variant = variant))
    (hline : line.id = productId ∧ line.variant = variant) :
    ∃ w2, addToCart productId productName productPrice quantity variant w = .ok w2 ∧
      getCart w2 = .ok (.cart (cart.map persisted ++
        [persisted { line with
          quantity := .num (line.quantity.toNumber.add quantity.toNumber) }])) := by
  have hsome : findPos (sameKey productId variant) (cart ++ [line]) = some cart.length :=
    findPos_append _ _ _ (fun item hitem => sameKey_eq_false _ _ _ (hfresh item hitem))
      ((sameKey_iff _ _ _).2 hline)
  obtain ⟨w2, hw2, hc2, _, _⟩ := saveCart_cart
    (cart ++ [{ line with quantity := .num (line.quantity.toNumber.add quantity.toNumber) }]) w
  refine ⟨w2, ?_, ?_⟩
  · simp only [addToCart, hcart, hsome, addQuantity_append, hw2]
  · rw [hc2, List.map_append]
    rfl

theorem persisted_ofInt (productId productName : String) (price quantity : Int)
    (variant : Variant) :
    persisted { id := productId, name := productName, price := Amount.ofInt price,
                quantity := Amount.ofInt quantity, variant := variant } =
      { id := productId, name := productName, price := Amount.ofInt price,
        quantity := Amount.ofInt quantity, variant := variant } := rfl

theorem add_ofInt (a b : Int) (h0 : 0 ≤ a + b) (h : a + b ≤ 9007199254740992) :
    (Amount.ofInt a).toNumber.add (Amount.ofInt b).toNumber = .finite (a + b) := by
  simp only [Amount.ofInt, Amount.toNumber, JSNumber.add, roundDouble_of_nonneg_le _ h0 h]

theorem sum_nonneg_of_pos (qs : List Int) (h : ∀ q ∈ qs, 0 < q) : 0 ≤ qs.sum := by
  induction qs with
  | nil => simp
  | cons q rest ih =>
    have h1 := h q (List.mem_cons_self _ _)
    have h2 := ih (fun x hx => h x (List.mem_cons_of_mem _ hx))
    simp only [List.sum_cons]
    omega

theorem addToCartAll_last (productId : String) (variant : Variant)
    (calls : List (String × Amount × Int)) (w : World) (cart : Cart) (line : CartLineItem)
    (a : Int)
    (hcart : getCart w = .ok (.cart (cart ++ [line])))
    (hbase : cart.map persisted = cart) (hpl : persisted line = line)
    (hfresh : ∀ item ∈ cart, ¬ (item.id = productId ∧ item.variant = variant))
    (hline : line.id = productId ∧ line.variant = variant)
    (hqty : line.quantity = Amount.ofInt a) (ha : 0 ≤ a)
    (hpos : ∀ call ∈ calls, 0 < call.2.2)
    (hsum : a + (calls.map (fun call => call.2.2)).sum ≤ 9007199254740992) :
    ∃ w2, addToCartAll productId variant calls w = .ok w2 ∧
      getCart w2 = .ok (.cart (cart ++
        [{ line with
          quantity := Amount.ofInt (a + (calls.map (fun call => call.2.2)).sum) }])) := by
  induction calls generalizing w line a with
  | nil =>
    refine ⟨w, rfl, ?_⟩
    rw [hcart]
    simp only [List.map_nil, List.sum_nil, add_zero, ← hqty]
  | cons call rest ih =>
    have hq := hpos call (List.mem_cons_self _ _)
    have hrest : ∀ c ∈ rest, 0 < c.2.2 := fun c hc => hpos c (List.mem_cons_of_mem _ hc)
    have hrs := sum_nonneg_of_pos (rest.map (fun c => c.2.2)) (by
      intro q hqm
      obtain ⟨c, hc, rfl⟩ := List.mem_map.1 hqm
      exact hrest c hc)
    simp only [List.map_cons, List.sum_cons] at hsum
    obtain ⟨w1, hw1, hc1⟩ := addToCart_last productId call.1 call.2.1
      (Amount.ofInt call.2.2) variant w cart line hcart hfresh hline
    have hadd : line.quantity.toNumber.add (Amount.ofInt call.2.2).toNumber =
        .finite (a + call.2.2) := by
      rw [hqty]
      exact add_ofInt a call.2.2 (by omega) (by omega)
    have hline2 : persisted { line with
        quantity := .num (line.quantity.toNumber.add (Amount.ofInt call.2.2).toNumber) } =
        { line with quantity := Amount.ofInt (a + call.2.2) } := by
      rw [hadd]
      have h1 : (persisted line).price = line.price := by rw [hpl]
      simp only [persisted, JSON.parseLine, JSON.stringifyLine] at h1 ⊢
      simp only [h1]
      rfl
    rw [hbase, hline2] at hc1
    obtain ⟨w2, hw2, hc2⟩ := ih w1 { line with quantity := Amount.ofInt (a + call.2.2) }
      (a + call.2.2) hc1 (by rw [← hline2]; exact persisted_idem _) hline rfl (by omega)
      hrest (by omega)
    refine ⟨w2, ?_, ?_⟩
    · simp only [addToCartAll, hw1, hw2]
    · rw [hc2]
      simp only [List.map_cons, List.sum_cons, add_assoc]

theorem filter_key_append (productId : String) (variant : Variant) (cart : Cart)
    (line : CartLineItem)
    (hfresh : ∀ item ∈ cart, ¬ (item.id = productId ∧ item.variant = variant))
    (hline : line.id = productId ∧ line.variant = variant) :
    (cart ++ [line]).filter
      (fun item => decide (item.id = productId ∧ item.variant = variant)) = [line] := by
  have h1 : cart.filter (fun item => decide (item.id = productId ∧ item.variant = variant)) = [] := by
    rw [List.filter_eq_nil_iff]
    intro item hitem
    simpa using hfresh item hitem
  rw [List.filter_append, h1]
  simp [List.filter, hline]

theorem fresh_map_persisted (productId : String) (variant : Variant) (cart : Cart)
    (hfresh : ∀ item ∈ cart, ¬ (item.id = productId ∧ item.variant = variant)) :
    ∀ item ∈ cart.map persisted, ¬ (item.id = productId ∧ item.variant = variant) := by
  intro item hitem
  obtain ⟨x, hx, rfl⟩ := List.mem_map.1 hitem
  exact hfresh x hx

/-! ## Claims on the cart store -/

/-- C1, as the code has it. Merge invariant of `addToCart`: from a persisted cart without
a line item of key `(productId, variant)`, a non-empty run of `addToCart` calls with that
product id and that variant, with positive integer quantities whose sum is at most `2^53`
and whatever names and prices, succeeds and leaves a cart in which exactly one line item
has that key; it is the last line item, after the earlier ones as they are read back, and
its quantity is the sum of the added quantities. -/
theorem addToCart_merge_invariant (productId : String) (variant : Variant)
    (calls : List (String × Amount × Int)) (w : World) (cart : Cart)
    (hcalls : calls ≠ [])
    (hcart : getCart w = .ok (.cart cart))
    (hfresh : ∀ item ∈ cart, ¬ (item.id = productId ∧ item.variant = variant))
    (hpos : ∀ call ∈ calls, 0 < call.2.2)
    (hsum : (calls.map (fun call => call.2.2)).sum ≤ 9007199254740992) :
    ∃ w2 line, addToCartAll productId variant calls w = .ok w2 ∧
      getCart w2 = .ok (.cart (cart.map persisted ++ [line])) ∧
      (cart.map persisted ++ [line]).filter
        (fun item => decide (item.id = productId ∧ item.variant = variant)) = [line] ∧
      line.id = productId ∧ line.variant = variant ∧
      line.quantity = Amount.ofInt (calls.map (fun call => call.2.2)).sum := by
  cases calls with
  | nil => exact absurd rfl hcalls
  | cons call rest =>
    have hq := hpos call (List.mem_cons_self _ _)
    simp only [List.map_cons, List.sum_cons] at hsum ⊢
    obtain ⟨w1, hw1, hc1⟩ := addToCart_fresh productId call.1 call.2.1
      (Amount.ofInt call.2.2) variant w cart hcart hfresh
    obtain ⟨w2, hw2, hc2⟩ := addToCartAll_last productId variant rest w1
      (cart.map persisted) _ call.2.2 hc1 (map_persisted_idem cart) (persisted_idem _)
      (fresh_map_persisted _ _ _ hfresh) ⟨rfl, rfl⟩ rfl (by omega)
      (fun c hc => hpos c (List.mem_cons_of_mem _ hc)) hsum
    refine ⟨w2, _, ?_, hc2,
      filter_key_append _ _ _ _ (fresh_map_persisted _ _ _ hfresh) ⟨rfl, rfl⟩, rfl, rfl, rfl⟩
    simp only [addToCartAll, hw1, hw2]

/-- C1 fails beyond `2^53`: on the blank state, adding the quantity `2^53` and then the
quantity 1 with the same key returns and leaves one line item of quantity `2^53`, while
the sum of the added quantities is `2^53 + 1`. -/
theorem addToCart_merge_rounds :
    (addToCartAll "p1" []
      [("Shirt", 1000, 9007199254740992), ("Shirt", 1000, 1)] blankWorld).toBool = true ∧
    getCart (stateAfter (addToCartAll "p1" []
      [("Shirt", 1000, 9007199254740992), ("Shirt", 1000, 1)] blankWorld)) =
      .ok (.cart [{ id := "p1", name := "Shirt", price := 1000,
                    quantity := 9007199254740992, variant := [] }]) ∧
    (([("Shirt", 1000, 9007199254740992), ("Shirt", 1000, 1)] :
      List (String × Amount × Int)).map (fun call => call.2.2)).sum = 9007199254740993 := by
  refine ⟨rfl, rfl, ?_⟩
  decide

/-- Two calls of `addToCart` on an empty cart with one product id and two different
variant objects leave two line items. -/
theorem addToCart_two_keys (productId name1 name2 : String) (price1 price2 q1 q2 : Int)
    (v1 v2 : Variant) (w : World) (hempty : getCart w = .ok (.cart [])) (hne : v1 ≠ v2) :
    ∃ w1 w2, addToCart productId name1 price1 q1 v1 w = .ok w1 ∧
      addToCart productId name2 price2 q2 v2 w1 = .ok w2 ∧
      getCart w2 = .ok (.cart
        [{ id := productId, name := name1, price := price1, quantity := q1, variant := v1 },
         { id := productId, name := name2, price := price2, quantity := q2,
           variant := v2 }]) := by
  obtain ⟨w1, hw1, hc1⟩ :=
    addToCart_fresh productId name1 price1 q1 v1 w [] hempty (fun item hitem => by simp at hitem)
  simp only [List.map_nil, List.nil_append, persisted_ofInt] at hc1
  obtain ⟨w2, hw2, hc2⟩ :=
    addToCart_fresh productId name2 price2 q2 v2 w1 _ hc1 (by
      intro item hitem
      simp only [List.mem_singleton] at hitem
      subst hitem
      exact fun hk => hne hk.2)
  simp only [List.map_cons, List.map_nil, persisted_ofInt] at hc2
  exact ⟨w1, w2, hw1, hw2, by simpa using hc2⟩

/-- C2. Distinctness in `addToCart`: on an empty cart, two calls with one product id and
two variants that differ in the value of some option label (one of them may lack the
label) succeed and leave exactly two line items, the first with the first variant and
quantity, the second with the second variant and quantity. -/
theorem addToCart_distinct_variants (productId name1 name2 : String)
    (price1 price2 q1 q2 : Int) (v1 v2 : Variant) (w : World)
    (hempty : getCart w = .ok (.cart []))
    (hdiff : ∃ label, v1.lookup label ≠ v2.lookup label) :
    ∃ w1 w2, addToCart productId name1 price1 q1 v1 w = .ok w1 ∧
      addToCart productId name2 price2 q2 v2 w1 = .ok w2 ∧
      getCart w2 = .ok (.cart
        [{ id := productId, name := name1, price := price1, quantity := q1, variant := v1 },
         { id := productId, name := name2, price := price2, quantity := q2,
           variant := v2 }]) := by
  obtain ⟨label, hlabel⟩ := hdiff
  exact addToCart_two_keys productId name1 name2 price1 price2 q1 q2 v1 v2 w hempty
    (fun h => hlabel (by rw [h]))

theorem getCart_other (w : World) (u : NonArrayValue) (h : getCart w = .ok (.other u)) :
    u.truthy = true := by
  unfold getCart getItem at h
  cases hs : w.cartSlot with
  | none => rw [hs] at h; simp [JSON.parse] at h
  | some stored =>
    rw [hs] at h
    cases stored with
    | malformed => simp [JSON.parse] at h
    | falsy => simp [JSON.parse] at h
    | cart lines => simp [JSON.parse] at h
    | other text =>
      by_cases ht : (JSON.parseNonArray text).truthy = true
      · simp only [JSON.parse, ht, if_true, Option.getD_some, Except.ok.injEq,
          CartValue.other.injEq] at h
        rw [← h]
        exact ht
      · simp [JSON.parse, ht] at h

theorem getCart_setItem_other (u : NonArrayValue) (w : World) (ht : u.truthy = true)
    (hexact : u.jsonExact = true) :
    getCart (setItem (JSON.stringifyCart (.other u)) w) = .ok (.other u) := by
  simp only [getCart, getItem, setItem, JSON.stringifyCart, JSON.parse,
    parseNonArray_stringifyNonArray u hexact, ht, if_true, Option.getD_some]

/-- C7, as the code has it. Persistence idempotence: on every state of the cart slot on
which `getCart` returns a value that holds no infinite number, the statement
`saveCart(getCart())`, whether it returns or raises while it refreshes the cart count,
leaves a state on which `getCart` returns the same value; it returns when the value is a
cart, and raises a `TypeError`, after the write, when the value is not an array. -/
theorem saveCart_getCart_noop (w : World) (v : CartValue) (hget : getCart w = .ok v)
    (hexact : v.jsonExact = true) :
    getCart (stateAfter (saveCartOfGetCart w)) = getCart w ∧
    ((∃ c, v = .cart c) → ∃ w2, saveCartOfGetCart w = .ok w2) ∧
    ((∃ u, v = .other u) → ∃ w2, saveCartOfGetCart w = .error (.typeError, w2)) := by
  cases v with
  | cart c =>
    obtain ⟨w2, hw2, hc2, _, _⟩ := saveCart_cart c w
    have hs : saveCartOfGetCart w = .ok w2 := by simp only [saveCartOfGetCart, hget, hw2]
    refine ⟨?_, fun _ => ⟨w2, hs⟩, fun ⟨u, hu⟩ => CartValue.noConfusion hu⟩
    rw [hs, hget]
    simp only [stateAfter, hc2, map_persisted_of_exact c hexact]
  | other u =>
    have ht := getCart_other w u hget
    have hg := getCart_setItem_other u w ht hexact
    refine ⟨?_, fun ⟨c, hc⟩ => CartValue.noConfusion hc,
      fun _ => ⟨setItem (JSON.stringifyCart (.other u)) w, ?_⟩⟩
    · simp only [saveCartOfGetCart, hget, saveCart, updateCartCount, hg, stateAfter]
    · simp only [saveCartOfGetCart, hget, saveCart, updateCartCount, hg]

/-- C7 fails on a slot whose text holds a numeral beyond the range of the doubles:
`getCart` returns a line item of price `Infinity`, `saveCart` writes that price as `null`,
and `getCart` then returns a line item of price `null`. -/
theorem saveCart_getCart_changes_infinity :
    getCart (worldWith (.cart [{ id := "p1", name := "Shirt", price := .huge,
                                 quantity := .numeral 1, variant := [] }])) =
      .ok (.cart [{ id := "p1", name := "Shirt", price := .num .posInf, quantity := 1,
                    variant := [] }]) ∧
    getCart (stateAfter (saveCartOfGetCart
      (worldWith (.cart [{ id := "p1", name := "Shirt", price := .huge,
                           quantity := .numeral 1, variant := [] }])))) =
      .ok (.cart [{ id := "p1", name := "Shirt", price := .null, quantity := 1,
                    variant := [] }]) :=
  ⟨rfl, rfl⟩

theorem findPos_spec (p : CartLineItem → Bool) (cart : Cart) (i : Nat)
    (h : findPos p cart = some i) :
    ∃ line, cart[i]? = some line ∧ p line = true ∧
      ∀ j, j < i → ∀ item, cart[j]? = some item → p item = false := by
  induction cart generalizing i with
  | nil => simp [findPos] at h
  | cons item rest ih =>
    by_cases hp : p item = true
    · simp only [findPos, hp, if_true, Option.some.injEq] at h
      subst h
      exact ⟨item, by simp, hp, fun j hj => absurd hj (Nat.not_lt_zero j)⟩
    · simp only [findPos, hp, Bool.false_eq_true, if_false, Option.map_eq_some'] at h
      obtain ⟨k, hk, rfl⟩ := h
      obtain ⟨line, hline, hpl, hbefore⟩ := ih k hk
      refine ⟨line, by simpa using hline, hpl, ?_⟩
      intro j hj x hx
      cases j with
      | zero =>
        simp only [List.getElem?_cons_zero, Option.some.injEq] at hx
        subst hx
        simpa using hp
      | succ j =>
        simp only [List.getElem?_cons_succ] at hx
        exact hbefore j (by omega) x hx

theorem findPos_isSome (p : CartLineItem → Bool) (cart : Cart)
    (h : ∃ item ∈ cart, p item = true) : ∃ i, findPos p cart = some i := by
  induction cart with
  | nil =>
    obtain ⟨item, hmem, _⟩ := h
    simp at hmem
  | cons item rest ih =>
    by_cases hp : p item = true
    · exact ⟨0, by simp [findPos, hp]⟩
    · obtain ⟨x, hmem, hx⟩ := h
      rcases List.mem_cons.1 hmem with rfl | hrest
      · exact absurd hx hp
      · obtain ⟨i, hi⟩ := ih ⟨x, hrest, hx⟩
        exact ⟨i + 1, by simp [findPos, hp, hi]⟩

theorem addQuantity_length (q : Amount) (i : Nat) (cart : Cart) :
    (addQuantity q i cart).length = cart.length := by
  induction cart generalizing i with
  | nil => cases i <;> rfl
  | cons item rest ih =>
    cases i with
    | zero => rfl
    | succ i => simp [addQuantity, ih]

theorem addQuantity_getElem_self (q : Amount) (i : Nat) (cart : Cart) (line : CartLineItem)
    (h : cart[i]? = some line) :
    (addQuantity q i cart)[i]? =
      some { line with quantity := .num (line.quantity.toNumber.add q.toNumber) } := by
  induction cart generalizing i with
  | nil => simp at h
  | cons item rest ih =>
    cases i with
    | zero =>
      simp only [List.getElem?_cons_zero, Option.some.injEq] at h
      subst h
      simp [addQuantity]
    | succ i =>
      simp only [List.getElem?_cons_succ] at h
      simpa [addQuantity] using ih i h

theorem addQuantity_getElem_other (q : Amount) (i j : Nat) (cart : Cart) (h : j ≠ i) :
    (addQuantity q i cart)[j]? = cart[j]? := by
  induction cart generalizing i j with
  | nil => cases i <;> rfl
  | cons item rest ih =>
    cases i with
    | zero =>
      cases j with
      | zero => exact absurd rfl h
      | succ j => simp [addQuantity]
    | succ i =>
      cases j with
      | zero => simp [addQuantity]
      | succ j =>
        simp only [addQuantity, List.getElem?_cons_succ]
        exact ih i j (fun hji => h (by rw [hji]))

theorem addQuantity_exact (q : Amount) (i : Nat) (cart : Cart) (line : CartLineItem) (s : Int)
    (hexact : cart.all CartLineItem.jsonExact = true) (hline : cart[i]? = some line)
    (hadd : line.quantity.toNumber.add q.toNumber = .finite s) :
    (addQuantity q i cart).all CartLineItem.jsonExact = true := by
  induction cart generalizing i with
  | nil => simp at hline
  | cons item rest ih =>
    simp only [List.all_cons, Bool.and_eq_true] at hexact
    cases i with
    | zero =>
      simp only [List.getElem?_cons_zero, Option.some.injEq] at hline
      subst hline
      have hp := hexact.1
      simp only [CartLineItem.jsonExact, Bool.and_eq_true] at hp
      have hb : CartLineItem.jsonExact
          { item with quantity := .num (item.quantity.toNumber.add q.toNumber) } = true := by
        rw [hadd]
        simp only [CartLineItem.jsonExact, Bool.and_eq_true, hp.1, true_and]
        rfl
      simp only [addQuantity, List.all_cons, Bool.and_eq_true, hexact.2, and_true, hb]
    | succ i =>
      simp only [List.getElem?_cons_succ] at hline
      simp only [addQuantity, List.all_cons, Bool.and_eq_true, hexact.1, true_and]
      exact ih i hexact.2 hline

/-- C8, as the code has it. Frame of a merging `addToCart`: when the persisted cart holds
no infinite number and holds a line item with key `(productId, variant)`, and the added
quantity and the quantity of each line item with that key are non-negative integers whose
sum is at most `2^53`, the call succeeds; the cart keeps its length; the first line item
with that key keeps its id, name, price and variant and has its quantity increased by the
added quantity, whatever name and price the call brings; every other position holds the
line item it held before. -/
theorem addToCart_merge_frame (productId productName : String) (productPrice : Amount)
    (quantity : Int) (variant : Variant) (w : World) (cart : Cart)
    (hcart : getCart w = .ok (.cart cart))
    (hmem : ∃ item ∈ cart, item.id = productId ∧ item.variant = variant)
    (hexact : cart.all CartLineItem.jsonExact = true)
    (hq : 0 ≤ quantity)
    (hsum : ∀ item ∈ cart, item.id = productId ∧ item.variant = variant →
      ∃ a : Int, item.quantity = Amount.ofInt a ∧ 0 ≤ a ∧ a + quantity ≤ 9007199254740992) :
    ∃ (w2 : World) (cart2 : Cart) (i : Nat) (line : CartLineItem) (a : Int),
      addToCart productId productName productPrice (Amount.ofInt quantity) variant w = .ok w2 ∧
      getCart w2 = .ok (.cart cart2) ∧
      cart2.length = cart.length ∧
      cart[i]? = some line ∧ line.id = productId ∧ line.variant = variant ∧
      (∀ (j : Nat), j < i → ∀ (item : CartLineItem), cart[j]? = some item →
        ¬ (item.id = productId ∧ item.variant = variant)) ∧
      line.quantity = Amount.ofInt a ∧
      cart2[i]? = some { id := line.id, name := line.name, price := line.price,
                         quantity := Amount.ofInt (a + quantity),
                         variant := line.variant } ∧
      ∀ (j : Nat), j ≠ i → cart2[j]? = cart[j]? := by
  obtain ⟨item, hitem, hkey⟩ := hmem
  obtain ⟨i, hi⟩ := findPos_isSome (sameKey productId variant) cart
    ⟨item, hitem, (sameKey_iff _ _ _).2 hkey⟩
  obtain ⟨line, hline, hpl, hbefore⟩ := findPos_spec _ _ _ hi
  have hlk := (sameKey_iff _ _ _).1 hpl
  obtain ⟨a, ha, ha0, hab⟩ := hsum line (List.getElem?_mem hline) hlk
  have hadd : line.quantity.toNumber.add (Amount.ofInt quantity).toNumber =
      .finite (a + quantity) := by
    rw [ha]
    exact add_ofInt a quantity (by omega) hab
  obtain ⟨w2, hw2, hc2, _, _⟩ :=
    saveCart_cart (addQuantity (Amount.ofInt quantity) i cart) w
  rw [map_persisted_of_exact _ (addQuantity_exact _ i cart line _ hexact hline hadd)] at hc2
  refine ⟨w2, addQuantity (Amount.ofInt quantity) i cart, i, line, a, ?_, hc2,
    addQuantity_length _ _ _, hline, hlk.1, hlk.2, ?_, ha, ?_,
    fun j hj => addQuantity_getElem_other _ _ _ _ hj⟩
  · simp only [addToCart, hcart, hi, hw2]
  · intro j hj x hx hk
    have := hbefore j hj x hx
    rw [(sameKey_iff _ _ _).2 hk] at this
    exact Bool.noConfusion this
  · rw [addQuantity_getElem_self _ _ _ _ hline, hadd]
    rfl

/-- C8 fails beyond `2^53` and on an infinite number. On a cart whose shirt has quantity
`2^53`, adding 1 to the shirt leaves the quantity `2^53`. On a cart whose text gives the
mug a price beyond the range of the doubles, adding 1 to the shirt changes the price of
the mug, read as `Infinity` before the call, to `null`. -/
theorem addToCart_merge_changes :
    getCart (stateAfter (addToCart "p1" "Shirt" 1000 1 []
      (worldWith (.cart [{ id := "p1", name := "Shirt", price := .numeral 1000,
                           quantity := .numeral 9007199254740992, variant := [] }])))) =
      .ok (.cart [{ id := "p1", name := "Shirt", price := 1000,
                    quantity := 9007199254740992, variant := [] }]) ∧
    getCart (worldWith (.cart [{ id := "p2", name := "Mug", price := .huge,
                                 quantity := .numeral 3, variant := [] },
                               { id := "p1", name := "Shirt", price := .numeral 1000,
                                 quantity := .numeral 2, variant := [] }])) =
      .ok (.cart [{ id := "p2", name := "Mug", price := .num .posInf, quantity := 3,
                    variant := [] },
                  { id := "p1", name := "Shirt", price := 1000, quantity := 2,
                    variant := [] }]) ∧
    getCart (stateAfter (addToCart "p1" "Shirt" 1000 1 []
      (worldWith (.cart [{ id := "p2", name := "Mug", price := .huge,
                           quantity := .numeral 3, variant := [] },
                         { id := "p1", name := "Shirt", price := .numeral 1000,
                           quantity := .numeral 2, variant := [] }])))) =
      .ok (.cart [{ id := "p2", name := "Mug", price := .null, quantity := 3,
                    variant := [] },
                  { id := "p1", name := "Shirt", price := 1000, quantity := 3,
                    variant := [] }]) :=
  ⟨rfl, rfl, rfl⟩

/-! ## The variant built on the product page -/

theorem any_key_eq_false (object : Variant) (key : String)
    (h : ∀ kv ∈ object, kv.1 ≠ key) : object.any (fun kv => kv.1 == key) = false := by
  rw [List.any_eq_false]
  intro kv hkv
  simpa using h kv hkv

theorem foldl_setProperty_plain (choices object : Variant)
    (hplain : ∀ kv ∈ choices, arrayIndex? kv.1 = none)
    (hnodup : (choices.map Prod.fst).Nodup)
    (hdisj : ∀ kv ∈ choices, ∀ kv2 ∈ object, kv2.1 ≠ kv.1) :
    choices.foldl (fun object kv => setProperty kv.1 kv.2 object) object =
      object ++ choices := by
  induction choices generalizing object with
  | nil => simp
  | cons kv rest ih =>
    simp only [List.map_cons, List.nodup_cons, List.mem_map, not_exists, not_and] at hnodup
    have hstep : setProperty kv.1 kv.2 object = object ++ [kv] := by
      simp only [setProperty,
        any_key_eq_false object kv.1 (fun kv2 h2 => hdisj kv (List.mem_cons_self _ _) kv2 h2),
        Bool.false_eq_true, if_false, hplain kv (List.mem_cons_self _ _)]
    rw [List.foldl_cons, hstep,
      ih (object ++ [kv]) (fun x hx => hplain x (List.mem_cons_of_mem _ hx)) hnodup.2 ?_]
    · simp
    · intro x hx kv2 h2
      rcases List.mem_append.1 h2 with h3 | h3
      · exact hdisj x (List.mem_cons_of_mem _ hx) kv2 h3
      · simp only [List.mem_singleton] at h3
        subst h3
        exact fun heq => hnodup.1 x hx heq.symm

/-- When no label is an array index and no label comes twice, the object lists the
choices in the order of the assignments. -/
theorem selectedOptions_plain (choices : Variant)
    (hplain : ∀ kv ∈ choices, arrayIndex? kv.1 = none)
    (hnodup : (choices.map Prod.fst).Nodup) : selectedOptions choices = choices := by
  have h := foldl_setProperty_plain choices [] hplain hnodup
    (fun _ _ kv2 h2 => by simp at h2)
  simpa [selectedOptions] using h

/-- C9, as the code has it. Variants are compared by `JSON.stringify`, which follows the
enumeration order of the keys (array indices ascending, then the other keys in the order
of their assignment). On an empty cart, adding two variants built from the same label and
value pairs, with positive integer quantities whose sum is at most `2^53`, leaves one line
item with the summed quantity when the two objects enumerate the pairs in the same order,
and two line items with their own quantities when they do not. When no label is an array
index and no label comes twice, two different orders of assignment give two different
enumeration orders, hence two line items. -/
theorem addToCart_variant_order (productId name1 name2 : String)
    (price1 price2 q1 q2 : Int) (choices1 choices2 : List (String × String)) (w : World)
    (hempty : getCart w = .ok (.cart [])) (hperm : choices1.Perm choices2)
    (hq1 : 0 < q1) (hq2 : 0 < q2) (hsum : q1 + q2 ≤ 9007199254740992) :
    (∃ w1 w2,
      addToCart productId name1 price1 q1 (selectedOptions choices1) w = .ok w1 ∧
      addToCart productId name2 price2 q2 (selectedOptions choices2) w1 = .ok w2 ∧
      getCart w2 = .ok (.cart
        (if selectedOptions choices1 = selectedOptions choices2 then
          [{ id := productId, name := name1, price := price1,
             quantity := Amount.ofInt (q1 + q2), variant := selectedOptions choices1 }]
        else
          [{ id := productId, name := name1, price := price1, quantity := q1,
             variant := selectedOptions choices1 },
           { id := productId, name := name2, price := price2, quantity := q2,
             variant := selectedOptions choices2 }]))) ∧
    ((∀ kv ∈ choices1, arrayIndex? kv.1 = none) → (choices1.map Prod.fst).Nodup →
      choices1 ≠ choices2 → selectedOptions choices1 ≠ selectedOptions choices2) := by
  constructor
  · by_cases hv : selectedOptions choices1 = selectedOptions choices2
    · obtain ⟨w1, hw1, hc1⟩ :=
        addToCart_fresh productId name1 price1 q1 (selectedOptions choices1) w [] hempty
          (fun item hitem => by simp at hitem)
      simp only [List.map_nil, List.nil_append, persisted_ofInt] at hc1
      obtain ⟨w2, hw2, hc2⟩ :=
        addToCart_last productId name2 price2 q2 (selectedOptions choices2) w1 [] _
          (by simpa using hc1) (fun item hitem => by simp at hitem) ⟨rfl, hv⟩
      refine ⟨w1, w2, hw1, hw2, ?_⟩
      rw [hc2, if_pos hv]
      simp only [List.map_nil, List.nil_append]
      rw [add_ofInt q1 q2 (by omega) hsum]
      rfl
    · obtain ⟨w1, w2, hw1, hw2, hc2⟩ :=
        addToCart_two_keys productId name1 name2 price1 price2 q1 q2
          (selectedOptions choices1) (selectedOptions choices2) w hempty hv
      exact ⟨w1, w2, hw1, hw2, by rw [hc2, if_neg hv]⟩
  · intro hplain hnodup hne
    have hplain2 : ∀ kv ∈ choices2, arrayIndex? kv.1 = none :=
      fun kv hkv => hplain kv (hperm.mem_iff.2 hkv)
    have hnodup2 : (choices2.map Prod.fst).Nodup := (hperm.map Prod.fst).nodup_iff.1 hnodup
    rw [selectedOptions_plain choices1 hplain hnodup,
      selectedOptions_plain choices2 hplain2 hnodup2]
    exact hne

/-- C9 fails when the key order differs: the same two pairs, assigned in the other order,
start a second line item instead of merging into the first. -/
theorem addToCart_reordered_variant_not_merged :
    [("color", "red"), ("size", "M")].Perm [("size", "M"), ("color", "red")] ∧
    getCart (stateAfter (addToCart "p1" "Shirt" 1000 2
      (selectedOptions [("size", "M"), ("color", "red")])
      (stateAfter (addToCart "p1" "Shirt" 1000 1
        (selectedOptions [("color", "red"), ("size", "M")]) blankWorld)))) =
      .ok (.cart [{ id := "p1", name := "Shirt", price := 1000, quantity := 1,
                    variant := [("color", "red"), ("size", "M")] },
                  { id := "p1", name := "Shirt", price := 1000, quantity := 2,
                    variant := [("size", "M"), ("color", "red")] }]) := by
  constructor
  · decide
  · rfl

/-! ## Cart page lemmas -/

theorem find_none_of_unresolved (products : List Product) (item : CartLineItem)
    (h : ∀ p ∈ products, p.id ≠ item.id) :
    products.find? (fun p => p.id == item.id) = none := by
  rw [List.find?_eq_none]
  intro p hp
  simpa using h p hp

theorem find_some_of_resolved (products : List Product) (item : CartLineItem)
    (h : ∃ p ∈ products, p.id = item.id) :
    ∃ product, products.find? (fun p => p.id == item.id) = some product := by
  cases hf : products.find? (fun p => p.id == item.id) with
  | some product => exact ⟨product, rfl⟩
  | none =>
    rw [List.find?_eq_none] at hf
    obtain ⟨p, hp, hid⟩ := h
    exact absurd (by simpa using hid) (hf p hp)

theorem cartItemsLoop_unresolved (products : List Product) (cart : Cart) (total : JSNumber)
    (rows : List CartRow) (hgap : ∃ item ∈ cart, ∀ p ∈ products, p.id ≠ item.id) :
    cartItemsLoop products cart total rows = .error .typeError := by
  induction cart generalizing total rows with
  | nil =>
    obtain ⟨item, hmem, _⟩ := hgap
    simp at hmem
  | cons item rest ih =>
    cases hf : products.find? (fun p => p.id == item.id) with
    | none => simp only [cartItemsLoop, hf]
    | some product =>
      obtain ⟨x, hmem, hx⟩ := hgap
      rcases List.mem_cons.1 hmem with rfl | hrest
      · rw [find_none_of_unresolved products x hx] at hf
        exact Option.noConfusion hf
      · simp only [cartItemsLoop, hf, ih _ _ ⟨x, hrest, hx⟩]

theorem isSafe_spec (a : Amount) (h : a.isSafe = true) :
    ∃ n : Int, a = .num (.finite n) ∧ 0 ≤ n ∧ n ≤ 9007199254740992 := by
  rcases a with (n | _ | _ | _) | _
  · simp only [Amount.isSafe, decide_eq_true_eq] at h
    exact ⟨n, rfl, h.1, h.2⟩
  all_goals simp [Amount.isSafe] at h

theorem exactTotal_nonneg (cart : Cart)
    (hsafe : ∀ item ∈ cart, item.price.isSafe = true ∧ item.quantity.isSafe = true) :
    0 ≤ exactTotal cart := by
  induction cart with
  | nil => simp [exactTotal]
  | cons item rest ih =>
    have hi := hsafe item (List.mem_cons_self _ _)
    obtain ⟨p, hp, hp0, _⟩ := isSafe_spec _ hi.1
    obtain ⟨q, hq, hq0, _⟩ := isSafe_spec _ hi.2
    have hr := ih (fun x hx => hsafe x (List.mem_cons_of_mem _ hx))
    simp only [exactTotal, List.map_cons, List.sum_cons, hp, hq, Amount.exact] at hr ⊢
    have := mul_nonneg hp0 hq0
    omega

theorem cartItemsLoop_resolved (products : List Product) (cart : Cart) (total : Int)
    (rows : List CartRow) (hres : ∀ item ∈ cart, ∃ p ∈ products, p.id = item.id)
    (hsafe : ∀ item ∈ cart, item.price.isSafe = true ∧ item.quantity.isSafe = true)
    (h0 : 0 ≤ total) (hsum : total + exactTotal cart ≤ 9007199254740992) :
    cartItemsLoop products cart (.finite total) rows =
      .ok (.finite (total + exactTotal cart), rows ++ cartRows products cart,
        itemsForGA4 products cart) := by
  induction cart generalizing total rows with
  | nil => simp [cartItemsLoop, exactTotal, cartRows, itemsForGA4]
  | cons item rest ih =>
    obtain ⟨product, hf⟩ :=
      find_some_of_resolved products item (hres item (List.mem_cons_self _ _))
    have hi := hsafe item (List.mem_cons_self _ _)
    obtain ⟨p, hp, hp0, _⟩ := isSafe_spec _ hi.1
    obtain ⟨q, hq, hq0, _⟩ := isSafe_spec _ hi.2
    have hrs := exactTotal_nonneg rest (fun x hx => hsafe x (List.mem_cons_of_mem _ hx))
    have hpq := mul_nonneg hp0 hq0
    have hcons : exactTotal (item :: rest) = p * q + exactTotal rest := by
      simp only [exactTotal, List.map_cons, List.sum_cons, hp, hq, Amount.exact]
    rw [hcons] at hsum
    have hline : lineTotal item = .finite (p * q) := by
      simp only [lineTotal, hp, hq, Amount.toNumber, JSNumber.mul]
      exact roundDouble_of_nonneg_le _ hpq (by omega)
    have hadd : (JSNumber.finite total).add (lineTotal item) = .finite (total + p * q) := by
      rw [hline]
      simp only [JSNumber.add]
      exact roundDouble_of_nonneg_le _ (by omega) (by omega)
    have hrec := ih (total + p * q) (rows ++ [cartRow item product])
      (fun x hx => hres x (List.mem_cons_of_mem _ hx))
      (fun x hx => hsafe x (List.mem_cons_of_mem _ hx)) (by omega) (by omega)
    simp only [cartItemsLoop, hf, hadd, hrec, hcons, cartRows, itemsForGA4,
      List.filterMap_cons, Option.map_some', List.append_assoc, List.singleton_append,
      add_assoc]

/-! ## Claims on the event pipeline and the pages -/

/-- C3, as the code has it. `getCart` returns the empty cart when the `cart` key is
missing or holds the text of a falsy value, returns the stored cart, as `JSON.parse` reads
it, when the slot holds the text of a cart, and raises a `SyntaxError` when the slot holds
text that `JSON.parse` rejects. -/
theorem getCart_by_slot (w : World) :
    ((w.cartSlot = none ∨ w.cartSlot = some .falsy) → getCart w = .ok (.cart [])) ∧
    (∀ lines, w.cartSlot = some (.cart lines) →
      getCart w = .ok (.cart (lines.map JSON.parseLine))) ∧
    (w.cartSlot = some .malformed → getCart w = .error .syntaxError) := by
  refine ⟨?_, ?_, ?_⟩
  · rintro (h | h) <;> simp [getCart, getItem, JSON.parse, h]
  · intro c h
    simp [getCart, getItem, JSON.parse, h]
  · intro h
    simp [getCart, getItem, JSON.parse, h]

/-- C3 fails on a malformed slot: `getCart` raises a `SyntaxError` instead of returning
the empty cart. -/
theorem getCart_malformed_raises :
    getCart (worldWith .malformed) = .error .syntaxError ∧
    getCart (worldWith .malformed) ≠ .ok (.cart []) := by
  constructor
  · rfl
  · intro h
    exact Except.noConfusion h

/-- C4, as the code has it. With no sink installed `fireGA4Event` logs a warning and
returns; with a sink installed it returns when the sink returns, and raises the
exception of the sink when the sink raises. -/
theorem fireGA4Event_outcome (sink : Sink) (eventName : String) (parameters : JSVal)
    (w : World) :
    fireGA4Event none eventName parameters w =
      .ok { w with warnings := w.warnings ++ [gtagMissingWarning] } ∧
    (sink "event" eventName parameters = .ok () →
      fireGA4Event (some sink) eventName parameters w =
        .ok { w with gtagCalls := w.gtagCalls ++ [(eventName, parameters)] }) ∧
    (∀ e, sink "event" eventName parameters = .error e →
      fireGA4Event (some sink) eventName parameters w = .error e) := by
  refine ⟨rfl, ?_, ?_⟩
  · intro h
    simp only [fireGA4Event, h]
  · intro e h
    simp only [fireGA4Event, h]

/-- C4 fails with a sink that raises: the exception reaches the caller of
`fireGA4Event`. -/
theorem fireGA4Event_failing_sink_raises :
    fireGA4Event (some failingSink) "purchase" (.obj []) blankWorld =
      .error (.thrown "sink failure") := rfl

/-- C5 on the code: when a line item of a non-empty cart matches no product of the
catalog, `loadCartPage` raises a `TypeError` (the read of `product.image` on
`undefined`); no `view_cart` event is produced. -/
theorem loadCartPage_unresolved_raises (gtag : Option Sink) (products : List Product)
    (w : World) (cart : Cart) (hcart : getCart w = .ok (.cart cart))
    (hgap : ∃ item ∈ cart, ∀ p ∈ products, p.id ≠ item.id) :
    loadCartPage gtag products w = .error .typeError := by
  have hne : ¬ cart.length = 0 := by
    obtain ⟨item, hmem, _⟩ := hgap
    intro h0
    rw [List.length_eq_zero] at h0
    rw [h0] at hmem
    simp at hmem
  simp only [loadCartPage, hcart, hne, if_false, cartItemsLoop_unresolved products cart 0 [] hgap]

/-- C6, as the code has it. For a non-empty cart whose line items all resolve in the
catalog and whose prices and quantities are integers from 0 to `2^53` with a sum of price
times quantity of at most `2^53`, `loadCartPage` renders one row per line item and the
total, and passes `view_cart` through `fireGA4Event`, whatever sink is installed or
missing, with a payload whose `value` is the sum over the line items of price times
quantity and whose `items` has one entry per line item; it returns when `fireGA4Event`
does, and the click on the checkout button passes `begin_checkout` through `fireGA4Event`
with the same payload, hence the same `value`. -/
theorem loadCartPage_total (gtag : Option Sink) (products : List Product) (w : World)
    (cart : Cart)
    (hcart : getCart w = .ok (.cart cart)) (hne : cart ≠ [])
    (hres : ∀ item ∈ cart, ∃ p ∈ products, p.id = item.id)
    (hsafe : ∀ item ∈ cart, item.price.isSafe = true ∧ item.quantity.isSafe = true)
    (hsum : exactTotal cart ≤ 9007199254740992) :
    loadCartPage gtag products w =
      (fireGA4Event gtag "view_cart"
        (cartEventPayload (.finite (exactTotal cart)) (itemsForGA4 products cart)) w).map
        (fun w2 => (w2, cartPageWith (cartRows products cart) (.finite (exactTotal cart))
          (cartEventPayload (.finite (exactTotal cart)) (itemsForGA4 products cart)))) ∧
    (cartEventPayload (.finite (exactTotal cart)) (itemsForGA4 products cart)).get "value" =
      .num (.finite (cart.map (fun item => item.price.exact * item.quantity.exact)).sum) ∧
    ((cartEventPayload (.finite (exactTotal cart)) (itemsForGA4 products cart)).get
      "items").elems.length = cart.length ∧
    (cartRows products cart).length = cart.length ∧
    ∀ w3, beginCheckoutClick gtag
        (cartPageWith (cartRows products cart) (.finite (exactTotal cart))
          (cartEventPayload (.finite (exactTotal cart)) (itemsForGA4 products cart))) w3 =
      fireGA4Event gtag "begin_checkout"
        (cartEventPayload (.finite (exactTotal cart)) (itemsForGA4 products cart)) w3 := by
  have hloop := cartItemsLoop_resolved products cart 0 [] hres hsafe (le_refl 0)
    (by omega)
  rw [zero_add, List.nil_append] at hloop
  have hlen0 : ¬ cart.length = 0 := fun h0 => hne (List.length_eq_zero.1 h0)
  have hfm : ∀ {β : Type} (f : CartLineItem → Product → β),
      (cart.filterMap
        (fun item => (products.find? (fun p => p.id == item.id)).map (f item))).length =
        cart.length := by
    intro β f
    have hall : ∀ c : Cart, (∀ item ∈ c, ∃ p ∈ products, p.id = item.id) →
        (c.filterMap
          (fun item => (products.find? (fun p => p.id == item.id)).map (f item))).length =
          c.length := by
      intro c
      induction c with
      | nil => intro _; rfl
      | cons item rest ih =>
        intro hr
        obtain ⟨product, hf⟩ :=
          find_some_of_resolved products item (hr item (List.mem_cons_self _ _))
        simp only [List.filterMap_cons, hf, Option.map_some', List.length_cons,
          ih (fun x hx => hr x (List.mem_cons_of_mem _ hx))]
    exact hall cart hres
  refine ⟨?_, ?_, ?_, hfm cartRow, fun w3 => rfl⟩
  · have h0 : (0 : JSNumber) = .finite 0 := rfl
    simp only [loadCartPage, hcart, hlen0, if_false, h0, hloop]
    cases fireGA4Event gtag "view_cart"
      (cartEventPayload (.finite (exactTotal cart)) (itemsForGA4 products cart)) w <;> rfl
  · simp [cartEventPayload, JSVal.get, List.lookup, exactTotal]
  · simp only [cartEventPayload, JSVal.get, List.lookup]
    simpa [JSVal.elems, itemsForGA4] using hfm cartItemForGA4

/-- C6 fails beyond `2^53`: for a cart with one line item of price `2^53 - 1` and
quantity 3, the total rendered and the `value` of `view_cart` are 27021597764222972,
while the product of price and quantity is 27021597764222973. -/
theorem loadCartPage_total_rounds :
    (loadCartPage (some acceptingSink) sampleCatalog
      (worldWithCart [{ redShirt with price := 9007199254740991, quantity := 3 }])).map
        (fun r => (r.2.summaryTotal, r.1.gtagCalls.map (fun call => call.1))) =
      .ok (some (.finite 27021597764222972), ["view_cart"]) ∧
    (∀ r, loadCartPage (some acceptingSink) sampleCatalog
        (worldWithCart [{ redShirt with price := 9007199254740991, quantity := 3 }]) = .ok r →
      r.1.gtagCalls.map (fun call => call.2.get "value") =
        [.num (.finite 27021597764222972)]) ∧
    exactTotal [{ redShirt with price := 9007199254740991, quantity := 3 }] =
      27021597764222973 := by
  refine ⟨rfl, ?_, by decide⟩
  intro r hr
  cases hr
  rfl

/-- C10 on the code, at a cart that holds one shirt and with a sink that accepts its
calls: `loadCheckoutPage` returns; the `items` of `add_shipping_info`, `add_payment_info`
and `purchase` hold a copy of the cart line item, with the properties `id`, `name`,
`price`, `quantity`, `variant` and neither `item_id` nor `item_name`, while the `items` of
`view_cart` for the same cart hold an object with the properties `item_id`, `item_name`,
`price`, `item_category`, `item_variant`, `quantity`. -/
theorem checkout_items_are_cart_line_items :
    loadCheckoutPage (worldWithCart [redShirt]) = .ok shirtCheckout ∧
    (shippingSubmit (some acceptingSink) shirtCheckout (worldWithCart [redShirt])).map
        itemShapes =
      .ok [("add_shipping_info", [["id", "name", "price", "quantity", "variant"]])] ∧
    (paymentSubmit (some acceptingSink) shirtCheckout "card"
        (worldWithCart [redShirt])).map itemShapes =
      .ok [("add_payment_info", [["id", "name", "price", "quantity", "variant"]])] ∧
    (purchaseClick (some acceptingSink) shirtCheckout 1700000000000
        (worldWithCart [redShirt])).map (fun r => itemShapes r.1) =
      .ok [("purchase", [["id", "name", "price", "quantity", "variant"]])] ∧
    (purchasePayload shirtCheckout 1700000000000).get "items" = .arr [spreadItem redShirt] ∧
    (spreadItem redShirt).get "item_id" = .undefined ∧
    (spreadItem redShirt).get "item_name" = .undefined ∧
    (loadCartPage (some acceptingSink) sampleCatalog (worldWithCart [redShirt])).map
        (fun r => itemShapes r.1) =
      .ok [("view_cart",
        [["item_id", "item_name", "price", "item_category", "item_variant", "quantity"]])] :=
  ⟨rfl, rfl, rfl, rfl, rfl, rfl, rfl, rfl⟩

/-! ## Instances of the claims on sample inputs -/

/-- The merge invariant on a cart that holds a mug: two adds of the red shirt, with
different prices, leave one shirt line of quantity three after the mug. -/
theorem addToCart_merge_invariant_witness :
    ([("Shirt", 1000, 1), ("Shirt", 1200, 2)] : List (String × Amount × Int)) ≠ [] ∧
    getCart (worldWithCart [mug]) = .ok (.cart [mug]) ∧
    (∀ item ∈ [mug], ¬ (item.id = "p1" ∧ item.variant = [("color", "red")])) ∧
    (∀ call ∈ ([("Shirt", 1000, 1), ("Shirt", 1200, 2)] : List (String × Amount × Int)),
      0 < call.2.2) ∧
    (([("Shirt", 1000, 1), ("Shirt", 1200, 2)] : List (String × Amount × Int)).map
      (fun call => call.2.2)).sum ≤ 9007199254740992 ∧
    ∃ w2 line,
      addToCartAll "p1" [("color", "red")] [("Shirt", 1000, 1), ("Shirt", 1200, 2)]
        (worldWithCart [mug]) = .ok w2 ∧
      getCart w2 = .ok (.cart ([mug].map persisted ++ [line])) ∧
      ([mug].map persisted ++ [line]).filter
        (fun item => decide (item.id = "p1" ∧ item.variant = [("color", "red")])) = [line] ∧
      line.id = "p1" ∧ line.variant = [("color", "red")] ∧
      line.quantity = Amount.ofInt 3 :=
  ⟨by decide, rfl, by decide, by decide, by decide,
    addToCart_merge_invariant "p1" [("color", "red")] [("Shirt", 1000, 1), ("Shirt", 1200, 2)]
      (worldWithCart [mug]) [mug] (by decide) rfl (by decide) (by decide) (by decide)⟩

/-- Distinctness on the blank state: a red and a blue shirt make two line items. -/
theorem addToCart_distinct_variants_witness :
    getCart blankWorld = .ok (.cart []) ∧
    (∃ label, [("color", "red")].lookup label ≠ [("color", "blue")].lookup label) ∧
    ∃ w1 w2, addToCart "p1" "Shirt" ((1000 : Int) : Amount) ((1 : Int) : Amount)
        [("color", "red")] blankWorld = .ok w1 ∧
      addToCart "p1" "Shirt" ((1000 : Int) : Amount) ((4 : Int) : Amount)
        [("color", "blue")] w1 = .ok w2 ∧
      getCart w2 = .ok (.cart
        [{ id := "p1", name := "Shirt", price := ((1000 : Int) : Amount),
           quantity := ((1 : Int) : Amount), variant := [("color", "red")] },
         { id := "p1", name := "Shirt", price := ((1000 : Int) : Amount),
           quantity := ((4 : Int) : Amount), variant := [("color", "blue")] }]) :=
  ⟨rfl, ⟨"color", by decide⟩,
    addToCart_distinct_variants "p1" "Shirt" "Shirt" 1000 1000 1 4 [("color", "red")]
      [("color", "blue")] blankWorld rfl ⟨"color", by decide⟩⟩

/-- The slot states of `getCart` on sample states. -/
theorem getCart_by_slot_witness :
    getCart blankWorld = .ok (.cart []) ∧
    getCart (worldWith .falsy) = .ok (.cart []) ∧
    getCart (worldWithCart [mug]) = .ok (.cart [mug]) ∧
    getCart (worldWith .malformed) = .error .syntaxError :=
  ⟨(getCart_by_slot blankWorld).1 (Or.inl rfl),
   (getCart_by_slot (worldWith .falsy)).1 (Or.inr rfl),
   (getCart_by_slot (worldWithCart [mug])).2.1 [JSON.stringifyLine mug] rfl,
   (getCart_by_slot (worldWith .malformed)).2.2 rfl⟩

/-- The outcomes of `fireGA4Event` with an accepting and with a failing sink. -/
theorem fireGA4Event_outcome_witness :
    acceptingSink "event" "view_cart" (.obj []) = .ok () ∧
    failingSink "event" "view_cart" (.obj []) = .error (.thrown "sink failure") ∧
    fireGA4Event (some acceptingSink) "view_cart" (.obj []) blankWorld =
      .ok { blankWorld with gtagCalls := blankWorld.gtagCalls ++ [("view_cart", .obj [])] } ∧
    fireGA4Event (some failingSink) "view_cart" (.obj []) blankWorld =
      .error (.thrown "sink failure") :=
  ⟨rfl, rfl,
   (fireGA4Event_outcome acceptingSink "view_cart" (.obj []) blankWorld).2.1 rfl,
   (fireGA4Event_outcome failingSink "view_cart" (.obj []) blankWorld).2.2 _ rfl⟩

/-- A cart with the shirt and a line item whose product left the catalog: `loadCartPage`
raises. -/
theorem loadCartPage_unresolved_raises_witness :
    getCart (worldWithCart [redShirt, { mug with id := "gone" }]) =
      .ok (.cart [redShirt, { mug with id := "gone" }]) ∧
    (∃ item ∈ [redShirt, { mug with id := "gone" }], ∀ p ∈ sampleCatalog, p.id ≠ item.id) ∧
    loadCartPage (some acceptingSink) sampleCatalog
      (worldWithCart [redShirt, { mug with id := "gone" }]) = .error .typeError :=
  ⟨rfl, ⟨{ mug with id := "gone" }, by decide, by decide⟩,
    loadCartPage_unresolved_raises (some acceptingSink) sampleCatalog
      (worldWithCart [redShirt, { mug with id := "gone" }])
      [redShirt, { mug with id := "gone" }] rfl
      ⟨{ mug with id := "gone" }, by decide, by decide⟩⟩

/-- The cart with two shirts at 1000 and three mugs at 500, with no sink installed and
with a sink that raises: the value is 3500. -/
theorem loadCartPage_total_witness :
    getCart (worldWithCart [redShirt, mug]) = .ok (.cart [redShirt, mug]) ∧
    [redShirt, mug] ≠ [] ∧
    (∀ item ∈ [redShirt, mug], ∃ p ∈ sampleCatalog, p.id = item.id) ∧
    (∀ item ∈ [redShirt, mug], item.price.isSafe = true ∧ item.quantity.isSafe = true) ∧
    exactTotal [redShirt, mug] ≤ 9007199254740992 ∧
    (cartEventPayload (.finite (exactTotal [redShirt, mug]))
      (itemsForGA4 sampleCatalog [redShirt, mug])).get "value" = .num (.finite 3500) ∧
    loadCartPage none sampleCatalog (worldWithCart [redShirt, mug]) =
      (fireGA4Event none "view_cart"
        (cartEventPayload (.finite (exactTotal [redShirt, mug]))
          (itemsForGA4 sampleCatalog [redShirt, mug])) (worldWithCart [redShirt, mug])).map
        (fun w2 => (w2, cartPageWith (cartRows sampleCatalog [redShirt, mug])
          (.finite (exactTotal [redShirt, mug]))
          (cartEventPayload (.finite (exactTotal [redShirt, mug]))
            (itemsForGA4 sampleCatalog [redShirt, mug])))) ∧
    loadCartPage (some failingSink) sampleCatalog (worldWithCart [redShirt, mug]) =
      (fireGA4Event (some failingSink) "view_cart"
        (cartEventPayload (.finite (exactTotal [redShirt, mug]))
          (itemsForGA4 sampleCatalog [redShirt, mug])) (worldWithCart [redShirt, mug])).map
        (fun w2 => (w2, cartPageWith (cartRows sampleCatalog [redShirt, mug])
          (.finite (exactTotal [redShirt, mug]))
          (cartEventPayload (.finite (exactTotal [redShirt, mug]))
            (itemsForGA4 sampleCatalog [redShirt, mug])))) :=
  ⟨rfl, by decide, by decide, by decide, by decide,
    (loadCartPage_total none sampleCatalog (worldWithCart [redShirt, mug]) [redShirt, mug]
      rfl (by decide) (by decide) (by decide) (by decide)).2.1,
    (loadCartPage_total none sampleCatalog (worldWithCart [redShirt, mug]) [redShirt, mug]
      rfl (by decide) (by decide) (by decide) (by decide)).1,
    (loadCartPage_total (some failingSink) sampleCatalog (worldWithCart [redShirt, mug])
      [redShirt, mug] rfl (by decide) (by decide) (by decide) (by decide)).1⟩

/-- Saving the cart just read, on a missing slot, on a stored cart and on the text `5`. -/
theorem saveCart_getCart_noop_witness :
    getCart blankWorld = .ok (.cart []) ∧
    getCart (stateAfter (saveCartOfGetCart blankWorld)) = getCart blankWorld ∧
    getCart (worldWithCart [redShirt, mug]) = .ok (.cart [redShirt, mug]) ∧
    getCart (stateAfter (saveCartOfGetCart (worldWithCart [redShirt, mug]))) =
      getCart (worldWithCart [redShirt, mug]) ∧
    getCart (worldWith (.other (.numeral 5))) = .ok (.other (.num (.finite 5))) ∧
    getCart (stateAfter (saveCartOfGetCart (worldWith (.other (.numeral 5))))) =
      getCart (worldWith (.other (.numeral 5))) :=
  ⟨rfl, (saveCart_getCart_noop blankWorld (.cart []) rfl rfl).1, rfl,
    (saveCart_getCart_noop (worldWithCart [redShirt, mug]) (.cart [redShirt, mug]) rfl rfl).1,
    rfl,
    (saveCart_getCart_noop (worldWith (.other (.numeral 5))) (.other (.num (.finite 5)))
      rfl rfl).1⟩

/-- A merging add on the cart with the mug and the shirt: the price 9999 brought by the
call is dropped. -/
theorem addToCart_merge_frame_witness :
    getCart (worldWithCart [mug, redShirt]) = .ok (.cart [mug, redShirt]) ∧
    (∃ item ∈ [mug, redShirt],
      item.id = "p1" ∧ item.variant = [("color", "red"), ("size", "M")]) ∧
    [mug, redShirt].all CartLineItem.jsonExact = true ∧
    (0 : Int) ≤ 5 ∧
    (∀ item ∈ [mug, redShirt],
      item.id = "p1" ∧ item.variant = [("color", "red"), ("size", "M")] →
      ∃ a : Int, item.quantity = Amount.ofInt a ∧ 0 ≤ a ∧ a + 5 ≤ 9007199254740992) ∧
    ∃ (w2 : World) (cart2 : Cart) (i : Nat) (line : CartLineItem) (a : Int),
      addToCart "p1" "Other name" 9999 (Amount.ofInt 5) [("color", "red"), ("size", "M")]
        (worldWithCart [mug, redShirt]) = .ok w2 ∧
      getCart w2 = .ok (.cart cart2) ∧
      cart2.length = [mug, redShirt].length ∧
      [mug, redShirt][i]? = some line ∧ line.id = "p1" ∧
      line.variant = [("color", "red"), ("size", "M")] ∧
      (∀ (j : Nat), j < i → ∀ (item : CartLineItem), [mug, redShirt][j]? = some item →
        ¬ (item.id = "p1" ∧ item.variant = [("color", "red"), ("size", "M")])) ∧
      line.quantity = Amount.ofInt a ∧
      cart2[i]? = some { id := line.id, name := line.name, price := line.price,
                         quantity := Amount.ofInt (a + 5), variant := line.variant } ∧
      ∀ (j : Nat), j ≠ i → cart2[j]? = [mug, redShirt][j]? :=
  ⟨rfl, ⟨redShirt, by decide, by decide⟩, by decide, by decide,
    (by
      intro item hitem hkey
      simp only [List.mem_cons, List.mem_singleton, List.not_mem_nil, or_false] at hitem
      rcases hitem with rfl | rfl
      · exact absurd hkey.1 (by decide)
      · exact ⟨2, rfl, by decide, by decide⟩),
    addToCart_merge_frame "p1" "Other name" 9999 5 [("color", "red"), ("size", "M")]
      (worldWithCart [mug, redShirt]) [mug, redShirt] rfl
      ⟨redShirt, by decide, by decide⟩ (by decide) (by decide)
      (by
        intro item hitem hkey
        simp only [List.mem_cons, List.mem_singleton, List.not_mem_nil, or_false] at hitem
        rcases hitem with rfl | rfl
        · exact absurd hkey.1 (by decide)
        · exact ⟨2, rfl, by decide, by decide⟩)⟩

/-- Two labels that are array indices, assigned in the two orders: the two objects
enumerate them alike and the second add merges into the first line item. -/
theorem addToCart_variant_order_witness :
    getCart blankWorld = .ok (.cart []) ∧
    [("1", "a"), ("2", "b")].Perm [("2", "b"), ("1", "a")] ∧
    (0 : Int) < 1 ∧ (0 : Int) < 2 ∧ (1 : Int) + 2 ≤ 9007199254740992 ∧
    selectedOptions [("1", "a"), ("2", "b")] = selectedOptions [("2", "b"), ("1", "a")] ∧
    ∃ w1 w2,
      addToCart "p1" "Shirt" ((1000 : Int) : Amount) ((1 : Int) : Amount)
        (selectedOptions [("1", "a"), ("2", "b")]) blankWorld = .ok w1 ∧
      addToCart "p1" "Shirt" ((1000 : Int) : Amount) ((2 : Int) : Amount)
        (selectedOptions [("2", "b"), ("1", "a")]) w1 = .ok w2 ∧
      getCart w2 = .ok (.cart
        (if selectedOptions [("1", "a"), ("2", "b")] = selectedOptions [("2", "b"), ("1", "a")]
        then
          [{ id := "p1", name := "Shirt", price := ((1000 : Int) : Amount),
             quantity := Amount.ofInt (1 + 2),
             variant := selectedOptions [("1", "a"), ("2", "b")] }]
        else
          [{ id := "p1", name := "Shirt", price := ((1000 : Int) : Amount),
             quantity := ((1 : Int) : Amount),
             variant := selectedOptions [("1", "a"), ("2", "b")] },
           { id := "p1", name := "Shirt", price := ((1000 : Int) : Amount),
             quantity := ((2 : Int) : Amount),
             variant := selectedOptions [("2", "b"), ("1", "a")] }])) :=
  ⟨rfl, by decide, by decide, by decide, by decide, by decide,
    (addToCart_variant_order "p1" "Shirt" "Shirt" 1000 1000 1 2 [("1", "a"), ("2", "b")]
      [("2", "b"), ("1", "a")] blankWorld rfl (by decide) (by decide) (by decide)
      (by decide)).1⟩

end Storefront
